import Mathlib

/-!
# Fibre scheduler: contexts, fibers, the FIFO scheduler, and the two utilities

A shallow embedding of `fibers/context.hpp`, `examples/task1.cpp`,
`examples/task2.cpp`, `examples/task3.cpp`, `fibers/test_context.cpp`,
`fibers/test_suite.cpp`, `allocator/bump_allocator.hpp` and
`my_string/my_string.hpp` with their tests.

* Pointers and `uintptr_t` values are natural numbers; 64-bit wrap-around is
  written explicitly as `% 2 ^ 64`.
* `get_context` / `set_context` are `setjmp` / `longjmp`.  A `jmp_buf` that
  holds a saved environment records the code position of the `setjmp` call,
  the stack pointer at that moment, and whether the function that made the
  `setjmp` call is still running.  A `longjmp` through an environment whose
  function has returned, or through a buffer that holds none, is undefined
  behaviour.  `get_context` makes its `setjmp` call in its own body, so the
  environment it leaves in the context belongs to a function that has
  returned.
* Straight-line programs that capture and resume (`main` of task1.cpp and of
  test_context.cpp) are small machines whose program counter is the source
  line number.
* A fiber body (`void (*)()`) is a list of statements: output, `s->spawn`,
  `s->fiber_exit()`.  The bodies in the sources only print and call
  `fiber_exit`; a body that itself calls `do_it` or `start` is outside the
  model.
* The queue of `fiber*` holds the fiber objects themselves: nothing writes to
  a fiber after its constructor, and an object is identified by the address
  of its `stack` array.
* Nothing in the sources switches stacks: every call runs on the stack of
  its caller, and a jump that is taken ends the functions it leaves.
* The allocator is its two `size_t` members; an allocation is the index into
  `buffer` of the pointer returned, `none` for `nullptr`.
* `my_string` and `RefCounted<T>` programs run on a table of `Data` blocks (by
  address, `new` taking the next address) and a table of objects (by
  identity).  An operation whose behaviour is undefined (a dead object, a
  write outside the array, overflow of an `int`) has the result `none`.
-/

namespace Fibre

/-! ## context.hpp -/

/-- The saved environment of `std::jmp_buf`: where the `setjmp` call was made,
the stack pointer then, and whether the function that made the call is still
running (`live`). -/
structure jmp_buf where
  site : Nat
  rsp : Nat
  live : Bool
deriving DecidableEq, Repr

/-- The struct `Context` (context.hpp 13-23).  `env = none` is a buffer into
which no environment has been saved. -/
structure Context where
  rip : Nat
  rsp : Nat
  rbp : Nat
  rbx : Nat
  r12 : Nat
  r13 : Nat
  r14 : Nat
  r15 : Nat
  env : Option jmp_buf
deriving DecidableEq, Repr

/-- The value-initialised `Context()`: every pointer null, the buffer zeroed. -/
def Context.zero : Context :=
  { rip := 0, rsp := 0, rbp := 0, rbx := 0, r12 := 0, r13 := 0, r14 := 0, r15 := 0,
    env := none }

/-- The value a `setjmp` call yields when a `longjmp` with argument `val`
lands on it: `val`, or 1 when `val` is 0. -/
def setjmp_return (val : Int) : Int :=
  if val = 0 then 1 else val

/-- `longjmp(env, val)`: the saved environment control is transferred to and
the value argument.  `none` is undefined behaviour: the buffer holds no
environment, or the function that made the `setjmp` call has returned.  There
is no result that returns to the caller. -/
def longjmp (env : Option jmp_buf) (val : Int) : Option (jmp_buf × Int) :=
  match env with
  | some j => if j.live then some (j, val) else none
  | none => none

/-- `get_context(ctx)` is `return setjmp(ctx->env)` (context.hpp 26-28), called
at code position `site` with stack pointer `rsp`.  The `setjmp` call is made
in the body of `get_context`: it saves the environment into `ctx->env` and
yields 0, and `get_context` returns that 0 to its caller.  With that return
the function that made the `setjmp` call has ended, so the environment the
caller finds in `ctx->env` is not live. -/
def get_context (site rsp : Nat) (ctx : Context) : Context × Int :=
  ({ ctx with env := some { site := site, rsp := rsp, live := false } }, 0)

/-- `set_context(ctx)` is `longjmp(ctx->env, 1)` (context.hpp 31-33). -/
def set_context (ctx : Context) : Option (jmp_buf × Int) :=
  longjmp ctx.env 1

/-! ## The seeded stack pointer (task3.cpp 22-30, task2.cpp 21-29) -/

/-- The mask `~0xFULL` as a 64-bit value. -/
def mask16 : Nat := 2 ^ 64 - 1 - 0xF

/-- The local `sp` of the `fiber` constructor after line 30, for a `stack`
member at address `stack`: `stack + sizeof(stack)`, masked with `~0xF`, minus
128, each step in 64-bit arithmetic. -/
def fiber_sp (stack : Nat) : Nat :=
  let sp := (stack + 4096) % 2 ^ 64
  let sp := sp &&& mask16
  (sp + 2 ^ 64 - 128) % 2 ^ 64

/-- The local `sp` of `main` in task2.cpp after line 29, for the array `data`
at address `data`. -/
def task2_sp (data : Nat) : Nat :=
  let sp := (data + 4096) % 2 ^ 64
  let sp := sp &&& mask16
  (sp + 2 ^ 64 - 128) % 2 ^ 64

/-! ## task3.cpp: fibers and the scheduler -/

mutual
/-- One statement of a fiber body. -/
inductive Stmt where
  | print (msg : String)
  | spawn (f : fiber)
  | fiber_exit
/-- The class `fiber` (task3.cpp 13-39): its `context`, the address of its
`stack` array, and `func`. -/
inductive fiber where
  | mk (context : Context) (stack : Nat) (func : List Stmt)
end

/-- The member `context`. -/
def fiber.context : fiber → Context
  | .mk c _ _ => c

/-- The address of the member array `stack`. -/
def fiber.stack : fiber → Nat
  | .mk _ a _ => a

/-- The member `func`. -/
def fiber.func : fiber → List Stmt
  | .mk _ _ b => b

/-- The constructor `fiber(void (*f)())` (task3.cpp 20-34) for an object whose
`stack` array lies at address `stack`.  The local `sp` is computed and goes
out of scope; `context` is assigned `Context()`; `func` is `f`. -/
def fiber.ctor (stack : Nat) (f : List Stmt) : fiber :=
  let _sp := fiber_sp stack
  fiber.mk Context.zero stack f

/-- The class `scheduler` (task3.cpp 41-68): the deque `fibers_` (front first)
and `context_`. -/
structure scheduler where
  fibers_ : List fiber
  context_ : Context

/-- The program state seen by task3.cpp: the scheduler `*s`, the stack pointer
of the running thread, the lines written to `std::cout`, and three logs kept
for the statements below: the fibers whose `start()` was called, the stack
pointer at each of those calls, and the number of `set_context` calls.  The
stack pointer stands for the stack the thread runs on: the frames that calls
push and pop on that stack are not tracked. -/
structure World where
  s : scheduler
  rsp : Nat
  cout : List String
  started : List fiber
  entry_rsp : List Nat
  switches : Nat

/-- How a call ends: it returns to its caller, or a `longjmp` with value `val`
is under way to the saved environment `j`, or the behaviour is undefined. -/
inductive Outcome where
  | returned (w : World)
  | jumped (j : jmp_buf) (val : Int) (w : World)
  | undefined (w : World)

/-- The state in which a call ended. -/
def Outcome.world : Outcome → World
  | .returned w => w
  | .jumped _ _ w => w
  | .undefined w => w

/-- Whether the call returned to its caller. -/
def Outcome.isReturned : Outcome → Bool
  | .returned _ => true
  | _ => false

/-- Whether the call ended in undefined behaviour. -/
def Outcome.isUndefined : Outcome → Bool
  | .undefined _ => true
  | _ => false

/-- `scheduler::spawn` (task3.cpp 49-51): `fibers_.push_back(f)`. -/
def scheduler.spawn (s : scheduler) (f : fiber) : scheduler :=
  { s with fibers_ := s.fibers_ ++ [f] }

/-- `s->spawn(f)` on the program state. -/
def World.spawn (w : World) (f : fiber) : World :=
  { w with s := w.s.spawn f }

/-- `scheduler::fiber_exit` (task3.cpp 64-67): `set_context(&context_)`.  A
jump that is defined restores the stack pointer saved in the buffer; a jump
that is not leaves the outcome undefined. -/
def scheduler.fiber_exit (w : World) : Outcome :=
  let w1 := { w with switches := w.switches + 1 }
  match set_context w.s.context_ with
  | some (j, val) => .jumped j val { w1 with rsp := j.rsp }
  | none => .undefined w1

/-- Execution of a fiber body.  A statement after `fiber_exit` is never
reached, because `set_context` does not return. -/
def run_body : List Stmt → World → Outcome
  | [], w => .returned w
  | .print msg :: k, w => run_body k { w with cout := w.cout ++ [msg] }
  | .spawn f :: k, w => run_body k (w.spawn f)
  | .fiber_exit :: _, w => scheduler.fiber_exit w

/-- `fiber::start` (task3.cpp 36-38): the ordinary call `func()`.  The call
is logged with the stack pointer of the thread that makes it. -/
def fiber.start (f : fiber) (w : World) : Outcome :=
  run_body f.func
    { w with started := w.started ++ [f], entry_rsp := w.entry_rsp ++ [w.rsp] }

/-- The code position of the `get_context` call in `do_it` (task3.cpp 55). -/
def do_it_site : Nat := 55

/-- The part of `scheduler::do_it` (task3.cpp 55-61) that follows the call
`get_context(&context_)`, for the value `rv` the call yields.  The outcome of
`f->start()` is the outcome of `do_it`: the call returns when the fiber body
returns; the environment saved at line 55 belongs to the `get_context` call
that has returned, so no jump can land there. -/
def do_it_from (rv : Int) (w : World) : Outcome :=
  if rv = 0 then
    match w.s.fibers_ with
    | [] => .returned w
    | f :: rest => f.start { w with s := { w.s with fibers_ := rest } }
  else .returned w

/-- `scheduler::do_it` (task3.cpp 53-62). -/
def scheduler.do_it (w : World) : Outcome :=
  let r := get_context do_it_site w.rsp w.s.context_
  do_it_from r.2 { w with s := { w.s with context_ := r.1 } }

/-- Calls of `do_it` one after another, `n` times. -/
def do_it_times : Nat → World → Outcome
  | 0, w => .returned w
  | n + 1, w =>
    match scheduler.do_it w with
    | .returned w1 => do_it_times n w1
    | o => o

/-- Calls `s->spawn(f)` for the fibers of a list, in list order. -/
def spawn_all (fs : List fiber) (w : World) : World :=
  fs.foldl World.spawn w

/-- `func1` of task3.cpp (71-75). -/
def func1 : List Stmt :=
  [.print "fiber 1 before", .print "fiber 1 after", .fiber_exit]

/-- `func2` of task3.cpp (77-80). -/
def func2 : List Stmt :=
  [.print "fiber 2", .fiber_exit]

/-- The state after `s = new scheduler()` (task3.cpp 83), on a thread with
stack pointer `rsp`: an empty queue, a zeroed context, nothing printed. -/
def World.init (rsp : Nat) : World :=
  { s := { fibers_ := [], context_ := Context.zero }, rsp := rsp, cout := [],
    started := [], entry_rsp := [], switches := 0 }

/-- `main` of task3.cpp (82-93) up to the second `do_it`, with the two fiber
objects allocated at addresses `a2` (constructed first) and `a1`. -/
def task3_main (rsp a2 a1 : Nat) : Outcome :=
  let w := World.init rsp
  let f2 := fiber.ctor a2 func2
  let f1 := fiber.ctor a1 func1
  let w := w.spawn f1
  let w := w.spawn f2
  do_it_times 2 w

/-- The expression `new fiber(f)` (task3.cpp 85-86) in program state `w`, for
an object whose `stack` array lies at address `stack`: the constructor runs,
and no statement of the program state is touched. -/
def new_fiber (stack : Nat) (f : List Stmt) (w : World) : fiber × World :=
  (fiber.ctor stack f, w)

/-! ## task1.cpp and test_context.cpp: programs that capture and resume -/

/-- The state of a program run.  `pc` is the source line about to execute,
0 once the run has ended.  `cout` holds one entry per output line: its text
and, where the line ends with the value of `x`, that value.  `incs` counts
executions of `x++`, `resumes` counts calls of `set_context`, `left` is the
environment a defined jump took control to (none of the lines modelled here
holds a `setjmp` call, so such a jump leaves them), `trace` lists the lines
executed, and `undefined` says that the run ended in undefined behaviour. -/
structure Machine where
  pc : Nat
  rsp : Nat
  x : Int
  ctx : Context
  main_ctx : Context
  foo_ctx : Context
  cout : List (String × Option Int)
  incs : Nat
  resumes : Nat
  left : Option jmp_buf
  trace : List Nat
  undefined : Bool

/-- The call `get_context(&ctx)` at line `m.pc`. -/
def Machine.call_get_context (m : Machine) (ctx : Context) : Context × Int :=
  get_context m.pc m.rsp ctx

/-- The call `set_context(&ctx)`.  The line after the call is not a
successor: either the jump is undefined behaviour, or control goes to the
function that holds the live `setjmp` call, outside the lines modelled. -/
def Machine.call_set_context (m : Machine) (ctx : Context) : Machine :=
  match set_context ctx with
  | some (j, _) =>
    { m with pc := 0, rsp := j.rsp, left := some j, resumes := m.resumes + 1 }
  | none => { m with pc := 0, undefined := true, resumes := m.resumes + 1 }

/-- One line of `main` and `foo` of test_context.cpp (11-43). -/
def test_context_main (m : Machine) : Machine :=
  match m.pc with
  | 19 => { m with cout := m.cout ++ [("Test 1: Basic context switching", none)], pc := 21 }
  | 21 => { m with x := 0, pc := 23 }
  | 23 =>
    let r := m.call_get_context m.ctx
    let m1 := { m with ctx := r.1 }
    if r.2 = 0 then { m1 with pc := 24 } else { m1 with pc := 30 }
  | 24 => { m with x := m.x + 1, incs := m.incs + 1, pc := 25 }
  | 25 => if m.x < 2 then { m with pc := 26 } else { m with pc := 30 }
  | 26 => { m with cout := m.cout ++ [("Before context switch, x = ", some m.x)], pc := 27 }
  | 27 => m.call_set_context m.ctx
  | 30 => { m with cout := m.cout ++ [("After context switch, x = ", some m.x)], pc := 33 }
  | 33 =>
    { m with cout := m.cout ++
        [("", none), ("Test 2: Context switching between functions", none)], pc := 36 }
  | 36 =>
    let r := m.call_get_context m.main_ctx
    let m1 := { m with main_ctx := r.1 }
    if r.2 = 0 then { m1 with pc := 38 } else { m1 with pc := 41 }
  | 38 => { m with pc := 12 }
  | 12 => { m with cout := m.cout ++ [("Executing foo()", none)], pc := 14 }
  | 14 => m.call_set_context m.main_ctx
  | 15 => { m with pc := 41 }
  | 41 => { m with cout := m.cout ++ [("Back in main()", none)], pc := 42 }
  | 42 => { m with pc := 0 }
  | _ => { m with pc := 0, undefined := true }

/-- Runs a program for at most `fuel` lines, logging each executed line. -/
def exec (step : Machine → Machine) : Nat → Machine → Machine
  | 0, m => m
  | fuel + 1, m =>
    if m.pc = 0 then m
    else exec step fuel (step { m with trace := m.trace ++ [m.pc] })

/-- The state at entry to `main` at line `pc`: the local `ctx` holds whatever
was in memory, the globals `main_ctx` and `foo_ctx` are zero-initialised. -/
def Machine.init (pc rsp : Nat) (ctx : Context) : Machine :=
  { pc := pc, rsp := rsp, x := 0, ctx := ctx, main_ctx := Context.zero,
    foo_ctx := Context.zero, cout := [], incs := 0, resumes := 0, left := none, trace := [],
    undefined := false }

/-- Whether execution of the body reaches a `fiber_exit`. -/
def exits : List Stmt → Bool
  | [] => false
  | .fiber_exit :: _ => true
  | _ :: k => exits k

/-- The lines the body prints before it returns or exits. -/
def prints : List Stmt → List String
  | [] => []
  | .print msg :: k => msg :: prints k
  | .spawn _ :: k => prints k
  | .fiber_exit :: _ => []

/-- The fibers the body spawns before it returns or exits. -/
def spawns : List Stmt → List fiber
  | [] => []
  | .print _ :: k => spawns k
  | .spawn f :: k => f :: spawns k
  | .fiber_exit :: _ => []

/-- The number of `start()` calls logged in `w` after those already logged in
`w0`, for the fiber object at the address of `f`. -/
def starts_since (w0 w : World) (f : fiber) : Nat :=
  ((w.started.drop w0.started.length).map fiber.stack).count f.stack

/-- The effect of a body on output and queue. -/
def body_effect (b : List Stmt) (w : World) : World :=
  { w with cout := w.cout ++ prints b,
           s := { w.s with fibers_ := w.s.fibers_ ++ spawns b } }

/-- The state in which `do_it` ends when `f` is at the front of the queue
and `rest` behind it: at the return of the body, or at its `fiber_exit`. -/
def after_fiber (f : fiber) (rest : List fiber) (w : World) : World :=
  { s := { fibers_ := rest ++ spawns f.func,
           context_ := { w.s.context_ with
             env := some { site := do_it_site, rsp := w.rsp, live := false } } },
    rsp := w.rsp,
    cout := w.cout ++ prints f.func,
    started := w.started ++ [f],
    entry_rsp := w.entry_rsp ++ [w.rsp],
    switches := w.switches + (if exits f.func then 1 else 0) }

/-- The state in which `do_it` returns when the queue is empty. -/
def after_empty (w : World) : World :=
  { w with s := { w.s with
      context_ := { w.s.context_ with
        env := some { site := do_it_site, rsp := w.rsp, live := false } } } }

/-! ## bump_allocator.hpp -/

/-- An element type `T` as the allocator sees it: `sizeof(T)` and
`alignof(T)`. -/
structure Ty where
  size : Nat
  align : Nat
deriving DecidableEq, Repr

/-- `int`: four bytes, aligned to four. -/
def Ty.int : Ty := { size := 4, align := 4 }

/-- `uint8_t`: one byte. -/
def Ty.uint8_t : Ty := { size := 1, align := 1 }

/-- The members `current_pos` and `allocation_count` of `bump<Size>`
(bump_allocator.hpp 12-13).  The contents of `buffer` are not tracked. -/
structure bump where
  current_pos : Nat
  allocation_count : Nat
deriving DecidableEq, Repr

/-- A freshly constructed `bump<Size>`. -/
def bump.fresh : bump := { current_pos := 0, allocation_count := 0 }

/-- The local `padding` of `alloc` (bump_allocator.hpp 20). -/
def bump.padding (T : Ty) (b : bump) : Nat :=
  (T.align - (b.current_pos % T.align)) % T.align

/-- The local `required_size` of `alloc` (bump_allocator.hpp 21), a `size_t`. -/
def bump.required_size (T : Ty) (count : Nat) (b : bump) : Nat :=
  (T.size * count + b.padding T) % 2 ^ 64

/-- `bump<Size>::alloc<T>(count)` (bump_allocator.hpp 16-39).  The result is
`none` for `nullptr` and otherwise the index into `buffer` of the returned
pointer, together with the allocator afterwards.  Every `size_t` operation
wraps at `2 ^ 64`. -/
def bump.alloc (Size : Nat) (T : Ty) (count : Nat) (b : bump) : Option Nat × bump :=
  let padding := b.padding T
  let required_size := b.required_size T count
  if (b.current_pos + required_size) % 2 ^ 64 > Size then
    (none, b)
  else
    let pos1 := (b.current_pos + padding) % 2 ^ 64
    let result := pos1
    let pos2 := (pos1 + T.size * count) % 2 ^ 64
    (some result,
      { current_pos := pos2, allocation_count := (b.allocation_count + 1) % 2 ^ 64 })

/-- `bump<Size>::dealloc()` (bump_allocator.hpp 41-48). -/
def bump.dealloc (b : bump) : bump :=
  if b.allocation_count > 0 then
    let c := b.allocation_count - 1
    if c = 0 then { current_pos := 0, allocation_count := c }
    else { b with allocation_count := c }
  else b

/-- `get_available_space()` (bump_allocator.hpp 53), a `size_t`. -/
def bump.get_available_space (Size : Nat) (b : bump) : Nat :=
  (Size + 2 ^ 64 - b.current_pos) % 2 ^ 64

/-- A sequence of `alloc` calls, given as element type and count each: the
results in call order and the allocator afterwards. -/
def alloc_all (Size : Nat) : List (Ty × Nat) → bump → List (Option Nat) × bump
  | [], b => ([], b)
  | r :: rs, b =>
    let a := b.alloc Size r.1 r.2
    let rest := alloc_all Size rs a.2
    (a.1 :: rest.1, rest.2)

/-- The number of calls in a list of results that did not return `nullptr`. -/
def successes (results : List (Option Nat)) : Nat :=
  (results.filter Option.isSome).length

/-- The bytes an allocation asks for, as an exact integer: the padding and
`sizeof(T) * count`. -/
def bump.requested (T : Ty) (count : Nat) (b : bump) : Nat :=
  b.padding T + T.size * count

/-- One call on an allocator. -/
inductive Op where
  | alloc (T : Ty) (count : Nat)
  | dealloc
deriving DecidableEq, Repr

/-- The allocator after one call. -/
def bump.step (Size : Nat) (b : bump) : Op → bump
  | .alloc T count => (b.alloc Size T count).2
  | .dealloc => b.dealloc

/-- The allocator after a sequence of calls. -/
def bump.run (Size : Nat) (ops : List Op) (b : bump) : bump :=
  ops.foldl (bump.step Size) b

/-! ## context.hpp: swap_context -/

/-- How a call that works on contexts in memory ends: it returns to its
caller, or a `longjmp` with value `val` is under way to the saved environment
`j`, or the behaviour is undefined.  `mem` maps the address of a `Context` to
its contents at that moment. -/
inductive Transfer where
  | returns (mem : Nat → Context)
  | jumps (j : jmp_buf) (val : Int) (mem : Nat → Context)
  | undefined (mem : Nat → Context)

/-- The memory in which a call ended. -/
def Transfer.mem : Transfer → Nat → Context
  | .returns m => m
  | .jumps _ _ m => m
  | .undefined m => m

/-- Whether the call ended in undefined behaviour. -/
def Transfer.isUndefined : Transfer → Bool
  | .undefined _ => true
  | _ => false

/-- The context once the function that saved its environment has ended: the
environment, if there is one, is no longer live. -/
def Context.expired (c : Context) : Context :=
  { c with env := c.env.map fun j => { j with live := false } }

/-- The part of `swap_context` (context.hpp 37-39) that follows the `setjmp`
of line 37, for the value `rv` that call yields; `self` is the environment
that `setjmp` saved.  Line 38 is the `longjmp` through `new_ctx->env` with
value 1: when that environment is `self`, control lands on the `setjmp` of
line 37 in the call that is still running, which now yields
`setjmp_return val`; a jump to any other live environment leaves the call.
The call ends by returning or by being left, and with it the environment in
`old_ctx` stops being live. -/
def swap_context_from (self : jmp_buf) (rv : Int) (old_ctx new_ctx : Nat)
    (mem : Nat → Context) : Transfer :=
  if _h : rv = 0 then
    match longjmp (mem new_ctx).env 1 with
    | some (t, val) =>
      if t = self then swap_context_from self (setjmp_return val) old_ctx new_ctx mem
      else .jumps t val (Function.update mem old_ctx (mem old_ctx).expired)
    | none => .undefined mem
  else .returns (Function.update mem old_ctx (mem old_ctx).expired)
termination_by (if rv = 0 then 1 else 0)
decreasing_by
  have hne : setjmp_return val ≠ 0 := by
    unfold setjmp_return
    split <;> simp_all
  simp [_h, hne]

/-- `swap_context(old_ctx, new_ctx)` (context.hpp 36-40), called at code
position `site` with stack pointer `rsp`; the two arguments are addresses and
may be equal.  The `setjmp` of line 37 is made in the body of `swap_context`
itself: it saves an environment that is live while the call runs, and
yields 0. -/
def swap_context (site rsp : Nat) (old_ctx new_ctx : Nat) (mem : Nat → Context) : Transfer :=
  let self : jmp_buf := { site := site, rsp := rsp, live := true }
  swap_context_from self 0 old_ctx new_ctx
    (Function.update mem old_ctx { mem old_ctx with env := some self })

/-- The statement `if (get_context(old_ctx) == 0) set_context(new_ctx);` at
the same code position, written with `get_context` and `set_context`. -/
def capture_then_resume (site rsp : Nat) (old_ctx new_ctx : Nat) (mem : Nat → Context) :
    Transfer :=
  let r := get_context site rsp (mem old_ctx)
  let mem1 := Function.update mem old_ctx r.1
  if r.2 = 0 then
    match set_context (mem1 new_ctx) with
    | some (t, val) => .jumps t val mem1
    | none => .undefined mem1
  else .returns mem1

/-! ## test_suite.cpp: the shared counter -/

/-- The largest `int`. -/
def INT_MAX : Int := 2 ^ 31 - 1

/-- The global `shared_data` of test_suite.cpp (line 48) and the lines written
to `std::cout`, each with the number that ends it, if any. -/
structure Suite where
  shared_data : Int
  cout : List (String × Option Int)
deriving DecidableEq, Repr

/-- `func1_with_data` (test_suite.cpp 50-53): prints the counter, then adds 1.
`none` is the signed overflow of `shared_data += 1`. -/
def func1_with_data (st : Suite) : Option Suite :=
  let st1 := { st with cout := st.cout ++ [("fiber 1: ", some st.shared_data)] }
  if st1.shared_data + 1 ≤ INT_MAX then
    some { st1 with shared_data := st1.shared_data + 1 }
  else none

/-- `func2_with_data` (test_suite.cpp 55-57): prints the counter. -/
def func2_with_data (st : Suite) : Suite :=
  { st with cout := st.cout ++ [("fiber 2: ", some st.shared_data)] }

/-- `test_function_with_data` (test_suite.cpp 59-63). -/
def test_function_with_data (st : Suite) : Option Suite :=
  let st1 := { st with cout := st.cout ++ [("", none), ("=== Test 2.2: Function with Data ===", none)] }
  (func1_with_data st1).map func2_with_data

/-! ## my_string.hpp -/

/-- The smallest `int`. -/
def INT_MIN : Int := -(2 ^ 31)

/-- The terminating character of a C string. -/
def NUL : Char := Char.ofNat 0

/-- The array of a string literal: its characters and the terminator. -/
def c_str (s : String) : List Char := s.toList ++ [NUL]

/-- `strlen(s)` for a character array: the number of characters before the
first terminator; `none` when the array holds no terminator, so that the scan
runs past its end. -/
def strlen (s : List Char) : Option Nat :=
  if NUL ∈ s then some (s.takeWhile fun c => c != NUL).length else none

/-- The entry at index `a` of a table whose entries can be vacated: `none`
for a vacated entry and for an index past the end. -/
def cell {β : Type} (l : List (Option β)) (a : Nat) : Option β :=
  match l[a]? with
  | some (some v) => some v
  | _ => none

/-- One line written to `std::cout` by the string programs: a reference count
in brackets, the characters of a string, or a message that may end with a
number. -/
inductive Line where
  | ref (n : Int)
  | str (s : List Char)
  | msg (text : String) (n : Option Int)
deriving DecidableEq, Repr

/-- The struct `my_string::Data` (my_string.hpp 9-21): the character array
`str` with its terminator, and `ref_count`. -/
structure my_string.Data where
  str : List Char
  ref_count : Int
deriving DecidableEq, Repr

/-- The constructor `Data(const char* s)` (my_string.hpp 13-16): an array of
`strlen(s) + 1` characters filled by `strcpy`, and a count of 1. -/
def my_string.Data.ctor (s : List Char) : Option my_string.Data :=
  match strlen s with
  | some n => some { str := s.take n ++ [NUL], ref_count := 1 }
  | none => none

/-- The state of a program that uses `my_string`: the `Data` blocks by
address (an entry is `none` once the block is deleted; `new` takes the next
address), the `my_string` objects by identity (`some a` for a live object
whose member `data` is `a`, `none` after its destructor), and the output. -/
structure Strings where
  heap : List (Option my_string.Data)
  objs : List (Option Nat)
  cout : List Line
deriving DecidableEq, Repr

/-- The state before any object exists. -/
def Strings.empty : Strings := { heap := [], objs := [], cout := [] }

/-- The member `data` of a live object. -/
def Strings.data (st : Strings) (this : Nat) : Option Nat := cell st.objs this

/-- The block at an address, if it has not been deleted. -/
def Strings.block (st : Strings) (a : Nat) : Option my_string.Data := cell st.heap a

/-- `my_string(const char* s)` (my_string.hpp 26-28); the result is the new
object and the state. -/
def my_string.ctor (s : List Char) (st : Strings) : Option (Nat × Strings) := do
  let d ← my_string.Data.ctor s
  some (st.objs.length,
    { heap := st.heap ++ [some d], objs := st.objs ++ [some st.heap.length],
      cout := st.cout ++ [Line.ref d.ref_count] })

/-- `my_string(const my_string& other)` (my_string.hpp 30-33). -/
def my_string.copy (other : Nat) (st : Strings) : Option (Nat × Strings) := do
  let a ← st.data other
  let d ← st.block a
  if d.ref_count + 1 ≤ INT_MAX then
    some (st.objs.length,
      { heap := st.heap.set a (some { d with ref_count := d.ref_count + 1 }),
        objs := st.objs ++ [some a],
        cout := st.cout ++ [Line.ref (d.ref_count + 1)] })
  else none

/-- `~my_string()` (my_string.hpp 35-41). -/
def my_string.dtor (this : Nat) (st : Strings) : Option Strings := do
  let a ← st.data this
  let d ← st.block a
  if INT_MIN ≤ d.ref_count - 1 then
    some
      { heap := st.heap.set a
          (if d.ref_count - 1 = 0 then none else some { d with ref_count := d.ref_count - 1 }),
        objs := st.objs.set this none,
        cout := st.cout ++ [Line.ref (d.ref_count - 1)] }
  else none

/-- `operator=(const my_string& other)` (my_string.hpp 43-53). -/
def my_string.assign (this other : Nat) (st : Strings) : Option Strings :=
  if this ≠ other then do
    let a ← st.data this
    let d ← st.block a
    if INT_MIN ≤ d.ref_count - 1 then
      let heap1 := st.heap.set a
        (if d.ref_count - 1 = 0 then none else some { d with ref_count := d.ref_count - 1 })
      let b ← st.data other
      let e ← cell heap1 b
      if e.ref_count + 1 ≤ INT_MAX then
        some { st with heap := heap1.set b (some { e with ref_count := e.ref_count + 1 }),
                       objs := st.objs.set this (some b) }
      else none
    else none
  else some st

/-- `setChar(int index, char c)` (my_string.hpp 55-63): the copy when the
block is shared (57-61), then the write `data->str[index] = c`, which is
defined inside the array only. -/
def my_string.setChar (this : Nat) (index : Int) (c : Char) (st : Strings) :
    Option Strings := do
  let a ← st.data this
  let d ← st.block a
  let st1 ←
    (if d.ref_count > 1 then
      (my_string.Data.ctor d.str).bind fun new_data =>
        some { st with heap := st.heap.set a (some { d with ref_count := d.ref_count - 1 })
                         ++ [some new_data],
                       objs := st.objs.set this (some st.heap.length) }
    else some st)
  let a1 ← st1.data this
  let d1 ← st1.block a1
  if 0 ≤ index ∧ index < d1.str.length then
    some { st1 with heap := st1.heap.set a1 (some { d1 with str := d1.str.set index.toNat c }) }
  else none

/-- The characters `data->str` shows up to its terminator. -/
def my_string.chars (this : Nat) (st : Strings) : Option (List Char) := do
  let a ← st.data this
  let d ← st.block a
  let n ← strlen d.str
  some (d.str.take n)

/-- `print()` (my_string.hpp 65-67). -/
def my_string.print (this : Nat) (st : Strings) : Option Strings := do
  let s ← my_string.chars this st
  some { st with cout := st.cout ++ [Line.str s] }

/-- `get_ref_count()` (my_string.hpp 69-71). -/
def my_string.get_ref_count (this : Nat) (st : Strings) : Option Int := do
  let a ← st.data this
  let d ← st.block a
  some d.ref_count

/-- `test_my_string` (test_my_string.cpp 11-21), the destructor of `s` at the
end of the function included. -/
def test_my_string (st : Strings) : Option Strings := do
  let st := { st with cout := st.cout ++
    [Line.msg "" none, Line.msg "=== Test 4.1: my_string Sharing and Scope ===" none] }
  let (s, st) ← my_string.ctor (c_str "Hello world") st
  let (t, st) ← my_string.copy s st
  let n ← my_string.get_ref_count s st
  let st := { st with cout := st.cout ++ [Line.msg "Reference count inside scope: " (some n)] }
  let st ← my_string.dtor t st
  let n ← my_string.get_ref_count s st
  let st := { st with cout := st.cout ++ [Line.msg "Reference count after scope: " (some n)] }
  let st ← my_string.setChar s 1 'E' st
  let st ← my_string.print s st
  my_string.dtor s st

/-- `test_ref_count_zero` (test_my_string.cpp 23-32). -/
def test_ref_count_zero (st : Strings) : Option Strings := do
  let st := { st with cout := st.cout ++
    [Line.msg "" none, Line.msg "=== Test 4.2: Reference Count Hits 0 ===" none] }
  let (s, st) ← my_string.ctor (c_str "Test string") st
  let (t, st) ← my_string.copy s st
  let n ← my_string.get_ref_count t st
  let st := { st with cout := st.cout ++ [Line.msg "Reference count after copy: " (some n)] }
  let st ← my_string.dtor t st
  let n ← my_string.get_ref_count s st
  let st := { st with cout := st.cout ++ [Line.msg "Reference count before delete: " (some n)] }
  my_string.dtor s st

/-- The states a program can reach from the empty state with the operations
of `my_string`, each with defined behaviour, and with output of its own. -/
inductive Strings.Reachable : Strings → Prop where
  | empty : Strings.Reachable Strings.empty
  | ctor (s : List Char) (st st1 : Strings) (h : Nat) :
      Strings.Reachable st → my_string.ctor s st = some (h, st1) → Strings.Reachable st1
  | copy (other : Nat) (st st1 : Strings) (h : Nat) :
      Strings.Reachable st → my_string.copy other st = some (h, st1) → Strings.Reachable st1
  | dtor (this : Nat) (st st1 : Strings) :
      Strings.Reachable st → my_string.dtor this st = some st1 → Strings.Reachable st1
  | assign (this other : Nat) (st st1 : Strings) :
      Strings.Reachable st → my_string.assign this other st = some st1 →
      Strings.Reachable st1
  | setChar (this : Nat) (index : Int) (c : Char) (st st1 : Strings) :
      Strings.Reachable st → my_string.setChar this index c st = some st1 →
      Strings.Reachable st1
  | print (this : Nat) (st st1 : Strings) :
      Strings.Reachable st → my_string.print this st = some st1 → Strings.Reachable st1
  | out (l : Line) (st : Strings) :
      Strings.Reachable st → Strings.Reachable { st with cout := st.cout ++ [l] }

/-- The number of live objects whose member `data` is the address `a`. -/
def handles_to (objs : List (Option Nat)) (a : Nat) : Nat :=
  objs.count (some a)

/-- The reference-count invariant on a table of counts `rc` (by block address)
against the number `cnt a` of live handles to each address: a live block has
a count equal to the number of its handles and at least 1; an address with no
live block has no handle. -/
def counted (rc : List (Option Int)) (cnt : Nat → Nat) : Prop :=
  ∀ a, match cell rc a with
    | some n => n = (cnt a : Int) ∧ 1 ≤ n
    | none => cnt a = 0

/-- The reference counts of the blocks, by address. -/
def Strings.counts (st : Strings) : List (Option Int) :=
  st.heap.map (Option.map my_string.Data.ref_count)

/-- The reference-count invariant of a `my_string` state. -/
def Strings.Inv (st : Strings) : Prop :=
  counted st.counts (handles_to st.objs)

/-! ## my_string.hpp: the template RefCounted -/

/-- The struct `RefCounted<T>::Data` (my_string.hpp 78-90): the object `obj`
owns and `ref_count`. -/
structure RefCounted.Data (T : Type) where
  obj : T
  ref_count : Int
deriving DecidableEq, Repr

/-- The state of a program that uses `RefCounted<T>`: the `Data` blocks by
address and the `RefCounted` objects by identity, as for `my_string`.  The
pointer `data->obj` is identified with the address of its block. -/
structure Refs (T : Type) where
  heap : List (Option (RefCounted.Data T))
  objs : List (Option Nat)
deriving DecidableEq, Repr

/-- The state before any object exists. -/
def Refs.empty {T : Type} : Refs T := { heap := [], objs := [] }

/-- The member `data` of a live object. -/
def Refs.data {T : Type} (st : Refs T) (this : Nat) : Option Nat := cell st.objs this

/-- The block at an address, if it has not been deleted. -/
def Refs.block {T : Type} (st : Refs T) (a : Nat) : Option (RefCounted.Data T) :=
  cell st.heap a

/-- `RefCounted(const T& t)` (my_string.hpp 94). -/
def RefCounted.ctor {T : Type} (t : T) (st : Refs T) : Nat × Refs T :=
  (st.objs.length,
    { heap := st.heap ++ [some { obj := t, ref_count := 1 }],
      objs := st.objs ++ [some st.heap.length] })

/-- `RefCounted(const RefCounted& other)` (my_string.hpp 96-98). -/
def RefCounted.copy {T : Type} (other : Nat) (st : Refs T) : Option (Nat × Refs T) := do
  let a ← st.data other
  let d ← st.block a
  if d.ref_count + 1 ≤ INT_MAX then
    some (st.objs.length,
      { heap := st.heap.set a (some { d with ref_count := d.ref_count + 1 }),
        objs := st.objs ++ [some a] })
  else none

/-- `~RefCounted()` (my_string.hpp 100-105). -/
def RefCounted.dtor {T : Type} (this : Nat) (st : Refs T) : Option (Refs T) := do
  let a ← st.data this
  let d ← st.block a
  if INT_MIN ≤ d.ref_count - 1 then
    some
      { heap := st.heap.set a
          (if d.ref_count - 1 = 0 then none else some { d with ref_count := d.ref_count - 1 }),
        objs := st.objs.set this none }
  else none

/-- `operator=(const RefCounted& other)` (my_string.hpp 107-117). -/
def RefCounted.assign {T : Type} (this other : Nat) (st : Refs T) : Option (Refs T) :=
  if this ≠ other then do
    let a ← st.data this
    let d ← st.block a
    if INT_MIN ≤ d.ref_count - 1 then
      let heap1 := st.heap.set a
        (if d.ref_count - 1 = 0 then none else some { d with ref_count := d.ref_count - 1 })
      let b ← st.data other
      let e ← cell heap1 b
      if e.ref_count + 1 ≤ INT_MAX then
        some { heap := heap1.set b (some { e with ref_count := e.ref_count + 1 }),
               objs := st.objs.set this (some b) }
      else none
    else none
  else some st

/-- The non-const `operator->()` (my_string.hpp 119-127): the copy when the
block is shared, then the pointer `data->obj`. -/
def RefCounted.arrow {T : Type} (this : Nat) (st : Refs T) : Option (Nat × Refs T) := do
  let a ← st.data this
  let d ← st.block a
  if d.ref_count > 1 then
    some (st.heap.length,
      { heap := st.heap.set a (some { d with ref_count := d.ref_count - 1 })
          ++ [some { obj := d.obj, ref_count := 1 }],
        objs := st.objs.set this (some st.heap.length) })
  else some (a, st)

/-- The const `operator->()` (my_string.hpp 129-131). -/
def RefCounted.arrow_const {T : Type} (this : Nat) (st : Refs T) : Option Nat := do
  let a ← st.data this
  let _ ← st.block a
  some a

/-- `get_ref_count()` (my_string.hpp 133-135). -/
def RefCounted.get_ref_count {T : Type} (this : Nat) (st : Refs T) : Option Int := do
  let a ← st.data this
  let d ← st.block a
  some d.ref_count

/-- A read through a pointer returned by `operator->`. -/
def Refs.read {T : Type} (p : Nat) (st : Refs T) : Option T :=
  (st.block p).map RefCounted.Data.obj

/-- A write through a pointer returned by `operator->`: the object becomes
`f` of what it was. -/
def Refs.write {T : Type} (p : Nat) (f : T → T) (st : Refs T) : Option (Refs T) := do
  let d ← st.block p
  some { st with heap := st.heap.set p (some { d with obj := f d.obj }) }

/-- The value a reader sees through an object without changing anything. -/
def RefCounted.value {T : Type} (this : Nat) (st : Refs T) : Option T :=
  (RefCounted.arrow_const this st).bind fun p => st.read p

/-- A statement `h->member = v`: the non-const `operator->`, then the write
through the pointer it returns. -/
def RefCounted.mutate {T : Type} (this : Nat) (f : T → T) (st : Refs T) :
    Option (Refs T) := do
  let r ← RefCounted.arrow this st
  r.2.write r.1 f

/-- The class `Point` (test_my_string.cpp 5-9). -/
structure Point where
  x : Int
  y : Int
deriving DecidableEq, Repr

/-- `test_template_wrapper` (test_my_string.cpp 34-54), the destructors at the
end of the scope and of the function included: the lines written and the
final state.  `p1` and `p2` are not const, so every `->` on them is the
non-const operator. -/
def test_template_wrapper (st : Refs Point) : Option (List Line × Refs Point) := do
  let out := [Line.msg "" none, Line.msg "=== Test 4.3: Template Wrapper ===" none]
  let (p1, st) := RefCounted.ctor { x := 10, y := 20 } st
  let n ← RefCounted.get_ref_count p1 st
  let out := out ++ [Line.msg "Initial ref count: " (some n)]
  let (p2, st) ← RefCounted.copy p1 st
  let n ← RefCounted.get_ref_count p1 st
  let out := out ++ [Line.msg "Ref count after copy: " (some n)]
  let st ← RefCounted.mutate p2 (fun p => { p with x := 30 }) st
  let (q1, st) ← RefCounted.arrow p1 st
  let v1 ← st.read q1
  let (q2, st) ← RefCounted.arrow p2 st
  let v2 ← st.read q2
  let out := out ++ [Line.msg "p1.x = " (some v1.x), Line.msg ", p2.x = " (some v2.x)]
  let n ← RefCounted.get_ref_count p1 st
  let out := out ++ [Line.msg "Ref count after modification: " (some n)]
  let st ← RefCounted.dtor p2 st
  let n ← RefCounted.get_ref_count p1 st
  let out := out ++ [Line.msg "Final ref count: " (some n)]
  let st ← RefCounted.dtor p1 st
  some (out, st)

/-- The states a program can reach from the empty state with the operations
of `RefCounted<T>` and writes through the pointers of live blocks. -/
inductive Refs.Reachable {T : Type} : Refs T → Prop where
  | empty : Refs.Reachable Refs.empty
  | ctor (t : T) (st : Refs T) :
      Refs.Reachable st → Refs.Reachable (RefCounted.ctor t st).2
  | copy (other : Nat) (st st1 : Refs T) (h : Nat) :
      Refs.Reachable st → RefCounted.copy other st = some (h, st1) → Refs.Reachable st1
  | dtor (this : Nat) (st st1 : Refs T) :
      Refs.Reachable st → RefCounted.dtor this st = some st1 → Refs.Reachable st1
  | assign (this other : Nat) (st st1 : Refs T) :
      Refs.Reachable st → RefCounted.assign this other st = some st1 → Refs.Reachable st1
  | arrow (this : Nat) (st st1 : Refs T) (p : Nat) :
      Refs.Reachable st → RefCounted.arrow this st = some (p, st1) → Refs.Reachable st1
  | write (p : Nat) (f : T → T) (st st1 : Refs T) :
      Refs.Reachable st → st.write p f = some st1 → Refs.Reachable st1

/-- The reference counts of the blocks, by address. -/
def Refs.counts {T : Type} (st : Refs T) : List (Option Int) :=
  st.heap.map (Option.map RefCounted.Data.ref_count)

/-- The reference-count invariant of a `RefCounted<T>` state. -/
def Refs.Inv {T : Type} (st : Refs T) : Prop :=
  counted st.counts (handles_to st.objs)

/-! ## Lemmas -/

theorem and_mask16 (x : Nat) (h : x < 2 ^ 64) : x &&& mask16 = x - x % 16 := by
  apply Nat.eq_of_testBit_eq
  intro i
  have hx : x - x % 16 = (x >>> 4) <<< 4 := by
    rw [Nat.shiftRight_eq_div_pow, Nat.shiftLeft_eq]; omega
  have hm : mask16 = (2 ^ 60 - 1) <<< 4 := by decide
  rw [hx, Nat.testBit_and, hm, Nat.testBit_shiftLeft, Nat.testBit_shiftLeft,
    Nat.testBit_shiftRight, Nat.testBit_two_pow_sub_one]
  by_cases h4 : 4 ≤ i
  · simp [h4]
    intro hb
    by_contra hge
    have hlt : x < 2 ^ i := lt_of_lt_of_le h (Nat.pow_le_pow_right (by norm_num) (by omega))
    have hf := Nat.testBit_lt_two_pow hlt
    simp_all
  · simp [h4]

theorem fiber_sp_eq (b : Nat) (h : b + 4096 < 2 ^ 64) :
    fiber_sp b = (b + 4096) - (b + 4096) % 16 - 128 := by
  unfold fiber_sp
  simp only
  rw [Nat.mod_eq_of_lt h, and_mask16 _ h]
  omega

theorem run_body_eq (b : List Stmt) (w : World) :
    run_body b w =
      if exits b then scheduler.fiber_exit (body_effect b w)
      else .returned (body_effect b w) := by
  induction b generalizing w with
  | nil => simp [run_body, exits, body_effect, prints, spawns]
  | cons st k ih =>
    cases st with
    | print msg =>
      simp [run_body, exits, ih, body_effect, prints, spawns]
    | spawn f =>
      simp [run_body, exits, ih, body_effect, prints, spawns, World.spawn, scheduler.spawn]
    | fiber_exit =>
      simp [run_body, exits, body_effect, prints, spawns]

theorem setjmp_return_ne (val : Int) : setjmp_return val ≠ 0 := by
  unfold setjmp_return
  split <;> simp_all

theorem set_context_get_context (site rsp : Nat) (ctx : Context) :
    set_context (get_context site rsp ctx).1 = none := by
  simp [set_context, get_context, longjmp]

theorem do_it_cons (w : World) (f : fiber) (rest : List fiber) (h : w.s.fibers_ = f :: rest) :
    scheduler.do_it w =
      if exits f.func then .undefined (after_fiber f rest w)
      else .returned (after_fiber f rest w) := by
  unfold scheduler.do_it do_it_from
  simp only [get_context, h, fiber.start, run_body_eq]
  by_cases he : exits f.func
  · simp [he, scheduler.fiber_exit, set_context, longjmp, after_fiber, body_effect]
  · simp [he, after_fiber, body_effect]

theorem do_it_nil (w : World) (h : w.s.fibers_ = []) :
    scheduler.do_it w = .returned (after_empty w) := by
  unfold scheduler.do_it do_it_from
  simp [get_context, h, after_empty]

theorem spawn_all_eq (fs : List fiber) (w : World) :
    spawn_all fs w = { w with s := { w.s with fibers_ := w.s.fibers_ ++ fs } } := by
  induction fs generalizing w with
  | nil => simp [spawn_all]
  | cons f fs ih =>
    have e : spawn_all (f :: fs) w = spawn_all fs (w.spawn f) := rfl
    rw [e, ih]
    simp [World.spawn, scheduler.spawn]

theorem do_it_times_empty (n : Nat) (w : World) (h : w.s.fibers_ = []) :
    ∃ w1, do_it_times n w = .returned w1 ∧ w1.s.fibers_ = [] ∧ w1.started = w.started ∧
      w1.entry_rsp = w.entry_rsp ∧ w1.cout = w.cout ∧ w1.switches = w.switches ∧
      w1.rsp = w.rsp := by
  induction n generalizing w with
  | zero => exact ⟨w, rfl, h, rfl, rfl, rfl, rfl, rfl⟩
  | succ n ih =>
    obtain ⟨w1, h1, h2, h3, h4, h5, h6, h7⟩ := ih (after_empty w) (by simp [after_empty, h])
    refine ⟨w1, ?_, h2, ?_, ?_, ?_, ?_, ?_⟩
    · simp only [do_it_times, do_it_nil w h]; exact h1
    · simpa [after_empty] using h3
    · simpa [after_empty] using h4
    · simpa [after_empty] using h5
    · simpa [after_empty] using h6
    · simpa [after_empty] using h7

theorem exec_halted (step : Machine → Machine) (n : Nat) (m : Machine) (h : m.pc = 0) :
    exec step n m = m := by
  cases n with
  | zero => rfl
  | succ n => simp [exec, h]

theorem exec_add (step : Machine → Machine) (a b : Nat) (m : Machine) :
    exec step (a + b) m = exec step b (exec step a m) := by
  induction a generalizing m with
  | zero => simp [exec]
  | succ a ih =>
    have e : a + 1 + b = (a + b) + 1 := by omega
    rw [e]
    by_cases hp : m.pc = 0
    · simp [exec, hp, exec_halted]
    · simp [exec, hp, ih]

/-! ## The scheduler -/

/-- C1 (FIFO order), evaluated on the code at `main` of task3.cpp, with stack
pointer 1000, `f2` constructed at address 5000 before `f1` at 9000, and `f1`
spawned before `f2`. The first call of `do_it` starts `f1`, whose body prints
its two lines and calls `fiber_exit`. The `set_context` made there goes
through the environment saved by the `get_context` call of line 55, a call
that has returned, so the first `do_it` ends in undefined behaviour and does
not return. No defined run reaches the second call: `f2` is still queued, has
not been started, and its marker is not in the output. With the same two
bodies without their `fiber_exit` call, both calls return and the markers
appear in submission order. -/
theorem fifo_order_stops_at_fiber_exit :
    (task3_main 1000 5000 9000).isUndefined = true ∧
    (task3_main 1000 5000 9000).isReturned = false ∧
    (task3_main 1000 5000 9000).world.started = [fiber.ctor 9000 func1] ∧
    (task3_main 1000 5000 9000).world.cout = ["fiber 1 before", "fiber 1 after"] ∧
    (task3_main 1000 5000 9000).world.s.fibers_ = [fiber.ctor 5000 func2] ∧
    "fiber 2" ∉ (task3_main 1000 5000 9000).world.cout ∧
    (do_it_times 2 (spawn_all
      [fiber.ctor 9000 [Stmt.print "fiber 1 before", Stmt.print "fiber 1 after"],
        fiber.ctor 5000 [Stmt.print "fiber 2"]] (World.init 1000))).isReturned = true ∧
    (do_it_times 2 (spawn_all
      [fiber.ctor 9000 [Stmt.print "fiber 1 before", Stmt.print "fiber 1 after"],
        fiber.ctor 5000 [Stmt.print "fiber 2"]] (World.init 1000))).world.cout
      = ["fiber 1 before", "fiber 1 after", "fiber 2"] := by
  have e : task3_main 1000 5000 9000 = do_it_times 2
      (spawn_all [fiber.ctor 9000 func1, fiber.ctor 5000 func2] (World.init 1000)) := rfl
  have h1 := do_it_cons
    (spawn_all [fiber.ctor 9000 func1, fiber.ctor 5000 func2] (World.init 1000))
    (fiber.ctor 9000 func1) [fiber.ctor 5000 func2] rfl
  have g1 := do_it_cons
    (spawn_all [fiber.ctor 9000 [Stmt.print "fiber 1 before", Stmt.print "fiber 1 after"],
      fiber.ctor 5000 [Stmt.print "fiber 2"]] (World.init 1000))
    (fiber.ctor 9000 [Stmt.print "fiber 1 before", Stmt.print "fiber 1 after"])
    [fiber.ctor 5000 [Stmt.print "fiber 2"]] rfl
  have g2 := do_it_cons
    (after_fiber (fiber.ctor 9000 [Stmt.print "fiber 1 before", Stmt.print "fiber 1 after"])
      [fiber.ctor 5000 [Stmt.print "fiber 2"]]
      (spawn_all [fiber.ctor 9000 [Stmt.print "fiber 1 before", Stmt.print "fiber 1 after"],
        fiber.ctor 5000 [Stmt.print "fiber 2"]] (World.init 1000)))
    (fiber.ctor 5000 [Stmt.print "fiber 2"]) [] rfl
  have x1 : exits (fiber.ctor 9000 func1).func = true := rfl
  have y1 : exits
      (fiber.ctor 9000 [Stmt.print "fiber 1 before", Stmt.print "fiber 1 after"]).func
        = false := rfl
  have y2 : exits (fiber.ctor 5000 [Stmt.print "fiber 2"]).func = false := rfl
  rw [x1, if_pos rfl] at h1
  rw [y1] at g1
  rw [y2] at g2
  simp only [Bool.false_eq_true, if_false] at g1 g2
  rw [e]
  simp only [do_it_times, h1, g1, g2]
  simp [Outcome.isUndefined, Outcome.isReturned, Outcome.world, after_fiber, spawn_all_eq,
    World.init, prints, spawns, func1, fiber.ctor, fiber.func]

/-- C2 (single step), evaluated on the code at the queue of task3.cpp
(`f1` in front, `f2` behind it). One call of `do_it` removes `f1`, starts it
once and leaves `f2` queued, but it does not return to its caller: the body
of `f1` ends in `fiber_exit`, the context it resumes holds the environment of
the `get_context` call of line 55 that has returned, `set_context` on that
context has no defined outcome, and the call of `do_it` ends in undefined
behaviour with `get_context` never yielding a non-zero value. When the front
body returns instead, the same call returns with `f2` left in the queue. -/
theorem single_step_fiber_exit_undefined :
    (scheduler.do_it (spawn_all [fiber.ctor 9000 func1, fiber.ctor 5000 func2]
      (World.init 1000))).isReturned = false ∧
    (scheduler.do_it (spawn_all [fiber.ctor 9000 func1, fiber.ctor 5000 func2]
      (World.init 1000))).isUndefined = true ∧
    (scheduler.do_it (spawn_all [fiber.ctor 9000 func1, fiber.ctor 5000 func2]
      (World.init 1000))).world.s.fibers_ = [fiber.ctor 5000 func2] ∧
    (scheduler.do_it (spawn_all [fiber.ctor 9000 func1, fiber.ctor 5000 func2]
      (World.init 1000))).world.started = [fiber.ctor 9000 func1] ∧
    (scheduler.do_it (spawn_all [fiber.ctor 9000 func1, fiber.ctor 5000 func2]
      (World.init 1000))).world.switches = 1 ∧
    (scheduler.do_it (spawn_all [fiber.ctor 9000 func1, fiber.ctor 5000 func2]
      (World.init 1000))).world.s.context_.env
      = some { site := do_it_site, rsp := 1000, live := false } ∧
    set_context (scheduler.do_it (spawn_all [fiber.ctor 9000 func1, fiber.ctor 5000 func2]
      (World.init 1000))).world.s.context_ = none ∧
    (scheduler.do_it (spawn_all [fiber.ctor 9000 [Stmt.print "fiber 1"], fiber.ctor 5000 func2]
      (World.init 1000))).isReturned = true ∧
    (scheduler.do_it (spawn_all [fiber.ctor 9000 [Stmt.print "fiber 1"], fiber.ctor 5000 func2]
      (World.init 1000))).world.s.fibers_ = [fiber.ctor 5000 func2] ∧
    (scheduler.do_it (spawn_all [fiber.ctor 9000 [Stmt.print "fiber 1"], fiber.ctor 5000 func2]
      (World.init 1000))).world.switches = 0 := by
  have h1 := do_it_cons
    (spawn_all [fiber.ctor 9000 func1, fiber.ctor 5000 func2] (World.init 1000))
    (fiber.ctor 9000 func1) [fiber.ctor 5000 func2] rfl
  have g1 := do_it_cons
    (spawn_all [fiber.ctor 9000 [Stmt.print "fiber 1"], fiber.ctor 5000 func2] (World.init 1000))
    (fiber.ctor 9000 [Stmt.print "fiber 1"]) [fiber.ctor 5000 func2] rfl
  have x1 : exits (fiber.ctor 9000 func1).func = true := rfl
  have y1 : exits (fiber.ctor 9000 [Stmt.print "fiber 1"]).func = false := rfl
  rw [x1, if_pos rfl] at h1
  rw [y1] at g1
  simp only [Bool.false_eq_true, if_false] at g1
  rw [h1, g1]
  simp [Outcome.isUndefined, Outcome.isReturned, Outcome.world, after_fiber, spawn_all_eq,
    World.init, spawns, func1, fiber.ctor, fiber.func, exits, set_context, longjmp]

/-- C3 (empty-queue run). On a scheduler whose queue is empty, any number `n`
of calls of `do_it` returns normally every time and leaves the queue empty, the
start log, the output and the count of `set_context` calls unchanged. -/
theorem empty_queue_noop (n : Nat) (w : World) (h : w.s.fibers_ = []) :
    (∀ m, m ≤ n → (do_it_times m w).isReturned = true) ∧
    (do_it_times n w).world.s.fibers_ = [] ∧
    (do_it_times n w).world.started = w.started ∧
    (do_it_times n w).world.entry_rsp = w.entry_rsp ∧
    (do_it_times n w).world.cout = w.cout ∧
    (do_it_times n w).world.switches = w.switches ∧
    (do_it_times n w).world.rsp = w.rsp := by
  obtain ⟨w1, h1, h2, h3, h4, h5, h6, h7⟩ := do_it_times_empty n w h
  refine ⟨?_, ?_, ?_, ?_, ?_, ?_, ?_⟩
  · intro m _
    obtain ⟨w2, g1, -⟩ := do_it_times_empty m w h
    rw [g1]; rfl
  all_goals rw [h1]; simpa [Outcome.world]

/-- Witness for C3: three calls on the fresh scheduler of task3.cpp. -/
theorem empty_queue_noop_witness :
    (World.init 1000).s.fibers_ = [] ∧
    (do_it_times 3 (World.init 1000)).world.s.fibers_ = [] ∧
    (do_it_times 3 (World.init 1000)).world.cout = [] ∧
    (do_it_times 3 (World.init 1000)).world.switches = 0 :=
  have h := empty_queue_noop 3 (World.init 1000) rfl
  ⟨rfl, h.2.1, h.2.2.2.2.1, h.2.2.2.2.2.1⟩

/-- C4 (drain without re-enqueue), evaluated on the code at the two fibers of
task3.cpp, each spawned once on the empty scheduler. After two calls of
`do_it`, and after any larger number, the queue is not empty: the first call
ends in undefined behaviour at the `fiber_exit` of `f1` (its `set_context`
goes through the environment of the returned `get_context` call of line 55),
so `f2` stays queued and is started zero times, while `f1` has been started
once. -/
theorem drain_stops_at_fiber_exit (n : Nat) :
    (do_it_times (n + 1) (spawn_all [fiber.ctor 9000 func1, fiber.ctor 5000 func2]
      (World.init 1000))).isReturned = false ∧
    (do_it_times (n + 1) (spawn_all [fiber.ctor 9000 func1, fiber.ctor 5000 func2]
      (World.init 1000))).isUndefined = true ∧
    (do_it_times (n + 1) (spawn_all [fiber.ctor 9000 func1, fiber.ctor 5000 func2]
      (World.init 1000))).world.s.fibers_ = [fiber.ctor 5000 func2] ∧
    starts_since (World.init 1000)
      (do_it_times (n + 1) (spawn_all [fiber.ctor 9000 func1, fiber.ctor 5000 func2]
        (World.init 1000))).world (fiber.ctor 5000 func2) = 0 ∧
    starts_since (World.init 1000)
      (do_it_times (n + 1) (spawn_all [fiber.ctor 9000 func1, fiber.ctor 5000 func2]
        (World.init 1000))).world (fiber.ctor 9000 func1) = 1 ∧
    (do_it_times 2 (spawn_all [fiber.ctor 9000 func1, fiber.ctor 5000 func2]
      (World.init 1000))).world.s.fibers_ ≠ [] := by
  have h1 := do_it_cons
    (spawn_all [fiber.ctor 9000 func1, fiber.ctor 5000 func2] (World.init 1000))
    (fiber.ctor 9000 func1) [fiber.ctor 5000 func2] rfl
  have x1 : exits (fiber.ctor 9000 func1).func = true := rfl
  rw [x1, if_pos rfl] at h1
  simp only [do_it_times, h1]
  simp [Outcome.isUndefined, Outcome.isReturned, Outcome.world, after_fiber, spawn_all_eq,
    World.init, spawns, func1, fiber.ctor, fiber.func, starts_since, fiber.stack]

/-! ## The fiber -/

/-- C5 (construction and the seeded context), evaluated on the code: for the
fiber built from `func1` with its stack array at address 0x10000 the
constructor computes the aligned, red-zone-adjusted pointer 0x10F80 in its
local `sp`, yet the constructed fiber's `context` is the zeroed `Context()`,
so its `rsp` field is 0 and not that pointer; the entry function is recorded
in `func`. -/
theorem ctor_context_not_seeded :
    fiber_sp 0x10000 = 0x10F80 ∧
    (fiber.ctor 0x10000 func1).context = Context.zero ∧
    (fiber.ctor 0x10000 func1).context.rsp = 0 ∧
    (fiber.ctor 0x10000 func1).context.rsp ≠ fiber_sp 0x10000 ∧
    (fiber.ctor 0x10000 func1).func = func1 := by
  have h : fiber_sp 0x10000 = 0x10F80 := by decide
  refine ⟨h, rfl, rfl, ?_, rfl⟩
  rw [h]
  decide

/-- C6 (seeded stack-pointer arithmetic). For a stack base `b` with
`b + 4096` below `2 ^ 64`, the pointer computed by the fiber constructor, and
equally by `main` of task2.cpp, is a multiple of 16 and lies between
`b + 3953` and `b + 3968`, hence inside the 4096-byte buffer that starts at
`b`. -/
theorem seeded_sp_bounds (b : Nat) (h : b + 4096 < 2 ^ 64) :
    fiber_sp b % 16 = 0 ∧
    b ≤ b + 3953 ∧ b + 3953 ≤ fiber_sp b ∧ fiber_sp b ≤ b + 3968 ∧ b + 3968 < b + 4096 ∧
    task2_sp b = fiber_sp b := by
  have ht : task2_sp b = fiber_sp b := by unfold task2_sp fiber_sp; rfl
  have he := fiber_sp_eq b h
  refine ⟨?_, ?_, ?_, ?_, ?_, ht⟩ <;> omega

/-- Witness for C6: a buffer at the unaligned address 0x10007. -/
theorem seeded_sp_bounds_witness :
    0x10007 + 4096 < 2 ^ 64 ∧ fiber_sp 0x10007 % 16 = 0 ∧ 0x10007 + 3953 ≤ fiber_sp 0x10007 ∧
    fiber_sp 0x10007 ≤ 0x10007 + 3968 :=
  have h := seeded_sp_bounds 0x10007 (by norm_num)
  ⟨by norm_num, h.1, h.2.2.1, h.2.2.2.1⟩

/-- C7 (first entry runs on the fiber's own stack), evaluated on the code:
the fiber built from `func1` with its stack array at 0x10000 is started by
`do_it` on a thread whose stack pointer is 0x7FFFF000. The body is entered
with that stack pointer, which is not the fiber's seeded pointer 0x10F80 and
does not lie in the fiber's buffer 0x10000 .. 0x10FFF. -/
theorem start_not_on_fiber_stack :
    (scheduler.do_it ((World.init 0x7FFFF000).spawn (fiber.ctor 0x10000 func1))).world.entry_rsp
      = [0x7FFFF000] ∧
    (scheduler.do_it ((World.init 0x7FFFF000).spawn (fiber.ctor 0x10000 func1))).world.entry_rsp
      ≠ [fiber_sp 0x10000] ∧
    ¬ (0x10000 ≤ 0x7FFFF000 ∧ 0x7FFFF000 < 0x10000 + 4096) := by
  have h := do_it_cons ((World.init 0x7FFFF000).spawn (fiber.ctor 0x10000 func1))
    (fiber.ctor 0x10000 func1) [] rfl
  have x1 : exits (fiber.ctor 0x10000 func1).func = true := rfl
  rw [x1, if_pos rfl] at h
  have hsp : fiber_sp 0x10000 = 0x10F80 := by decide
  rw [h, hsp]
  refine ⟨rfl, ?_, by decide⟩
  simp [Outcome.world, after_fiber, World.spawn, World.init]

/-- C8 (entry runs exactly once). Constructing a fiber for the entry function
`F` leaves the program state as it was: nothing is started and nothing is
printed. One call of `start` on the constructed fiber adds exactly one entry,
that fiber, to the start log and the lines of `F` once to the output. -/
theorem entry_runs_once (stack : Nat) (F : List Stmt) (w : World) :
    (new_fiber stack F w).2 = w ∧
    (new_fiber stack F w).1.func = F ∧
    ((new_fiber stack F w).1.start w).world.started = w.started ++ [(new_fiber stack F w).1] ∧
    ((new_fiber stack F w).1.start w).world.started.length = w.started.length + 1 ∧
    ((new_fiber stack F w).1.start w).world.cout = w.cout ++ prints F := by
  have hw : ∀ (f : fiber), (f.start w).world.started = w.started ++ [f] ∧
      (f.start w).world.cout = w.cout ++ prints f.func := by
    intro f
    simp only [fiber.start, run_body_eq]
    by_cases he : exits f.func
    · simp only [he, if_true, scheduler.fiber_exit]
      cases hs : set_context w.s.context_ with
      | none => simp [body_effect, hs, Outcome.world]
      | some p => simp [body_effect, hs, Outcome.world]
    · simp [he, body_effect, Outcome.world]
  refine ⟨rfl, rfl, (hw _).1, ?_, (hw _).2⟩
  rw [(hw _).1]; simp

/-! ## Capture and resume -/

theorem test_context_run (rsp : Nat) (c : Context) :
    exec test_context_main 7 (Machine.init 19 rsp c) =
      { pc := 0, rsp := rsp, x := 1,
        ctx := { c with env := some { site := 23, rsp := rsp, live := false } },
        main_ctx := Context.zero, foo_ctx := Context.zero,
        cout := [("Test 1: Basic context switching", none),
          ("Before context switch, x = ", some 1)],
        incs := 1, resumes := 1, left := none,
        trace := [19, 21, 23, 24, 25, 26, 27],
        undefined := true } := by
  simp [exec, test_context_main, Machine.init, Machine.call_get_context,
    Machine.call_set_context, get_context, set_context, longjmp]

theorem test_context_run_test2 (rsp : Nat) (c : Context) :
    exec test_context_main 5 (Machine.init 33 rsp c) =
      { pc := 0, rsp := rsp, x := 0, ctx := c,
        main_ctx := { Context.zero with env := some { site := 36, rsp := rsp, live := false } },
        foo_ctx := Context.zero,
        cout := [("", none), ("Test 2: Context switching between functions", none),
          ("Executing foo()", none)],
        incs := 0, resumes := 1, left := none,
        trace := [33, 36, 38, 12, 14],
        undefined := true } := by
  simp [exec, test_context_main, Machine.init, Machine.call_get_context,
    Machine.call_set_context, get_context, set_context, longjmp]

/-- C10 (capture and resume outcomes), evaluated on the code. `get_context`
returns 0 to its caller, as claimed. For a context captured by `get_context`,
at any position and with any previous content, `set_context` has no defined
outcome: the environment in the context was saved by the `setjmp` call inside
`get_context`, and that function has returned. In test_context.cpp, Test 2
run from line 33 executes lines 33, 36, 38, 12 and 14 and ends in undefined
behaviour at the `set_context` of `foo`: control does not reappear at the
`get_context` call of line 36, which is executed once and yields a non-zero
value at no time, and "Back in main()" is not printed. The whole of `main`,
run from line 19, ends the same way at the `set_context` of line 27. More
fuel changes nothing. -/
theorem resume_of_captured_context_undefined (site rsp : Nat) (ctx c : Context) (n : Nat) :
    (get_context site rsp ctx).2 = 0 ∧
    (get_context site rsp ctx).1.env = some { site := site, rsp := rsp, live := false } ∧
    set_context (get_context site rsp ctx).1 = none ∧
    (exec test_context_main (5 + n) (Machine.init 33 rsp c)).undefined = true ∧
    (exec test_context_main (5 + n) (Machine.init 33 rsp c)).trace = [33, 36, 38, 12, 14] ∧
    (exec test_context_main (5 + n) (Machine.init 33 rsp c)).trace.count 36 = 1 ∧
    (exec test_context_main (5 + n) (Machine.init 33 rsp c)).left = none ∧
    ("Back in main()", none) ∉ (exec test_context_main (5 + n) (Machine.init 33 rsp c)).cout ∧
    (exec test_context_main (7 + n) (Machine.init 19 rsp c)).undefined = true ∧
    (exec test_context_main (7 + n) (Machine.init 19 rsp c)).trace
      = [19, 21, 23, 24, 25, 26, 27] ∧
    (exec test_context_main (7 + n) (Machine.init 19 rsp c)).left = none := by
  rw [exec_add, exec_add, test_context_run, test_context_run_test2, exec_halted _ _ _ rfl,
    exec_halted _ _ _ rfl]
  refine ⟨rfl, rfl, set_context_get_context site rsp ctx, rfl, rfl, ?_, rfl, ?_, rfl, rfl, rfl⟩
  · simp
  · simp

/-! ## The bump allocator -/

theorem padding_lt (T : Ty) (b : bump) (h : 0 < T.align) : b.padding T < T.align :=
  Nat.mod_lt _ h

theorem padded_aligned (T : Ty) (b : bump) (h : 0 < T.align) :
    (b.current_pos + b.padding T) % T.align = 0 := by
  unfold bump.padding
  have hr : b.current_pos % T.align < T.align := Nat.mod_lt _ h
  by_cases h0 : b.current_pos % T.align = 0
  · rw [h0, Nat.sub_zero, Nat.mod_self, Nat.add_zero, h0]
  · have hlt : T.align - b.current_pos % T.align < T.align := by omega
    rw [Nat.mod_eq_of_lt hlt, Nat.add_mod]
    have e : b.current_pos % T.align + (T.align - b.current_pos % T.align) % T.align
        = T.align := by
      rw [Nat.mod_eq_of_lt hlt]; omega
    rw [e, Nat.mod_self]

theorem alloc_fail (Size : Nat) (T : Ty) (count : Nat) (b : bump)
    (h : (b.current_pos + b.required_size T count) % 2 ^ 64 > Size) :
    b.alloc Size T count = (none, b) := by
  unfold bump.alloc
  simp only []
  rw [if_pos h]

theorem alloc_ok (Size : Nat) (T : Ty) (count : Nat) (b : bump)
    (h : ¬ (b.current_pos + b.required_size T count) % 2 ^ 64 > Size) :
    b.alloc Size T count =
      (some ((b.current_pos + b.padding T) % 2 ^ 64),
        { current_pos := ((b.current_pos + b.padding T) % 2 ^ 64 + T.size * count) % 2 ^ 64,
          allocation_count := (b.allocation_count + 1) % 2 ^ 64 }) := by
  unfold bump.alloc
  simp only []
  rw [if_neg h]

theorem alloc_none_iff (Size : Nat) (T : Ty) (count : Nat) (b : bump) :
    (b.alloc Size T count).1 = none ↔
      (b.current_pos + b.required_size T count) % 2 ^ 64 > Size := by
  by_cases h : (b.current_pos + b.required_size T count) % 2 ^ 64 > Size
  · rw [alloc_fail _ _ _ _ h]; exact iff_of_true rfl h
  · rw [alloc_ok _ _ _ _ h]; exact iff_of_false (by simp) h

/-- When the exact sum `current_pos + padding + sizeof(T) * count` stays below
`2 ^ 64`, a request that exceeds the remaining space is refused. -/
theorem alloc_rejects_without_wrap (Size : Nat) (T : Ty) (count : Nat) (b : bump)
    (hno : b.current_pos + b.requested T count < 2 ^ 64)
    (hex : b.requested T count > Size - b.current_pos) (hcp : b.current_pos ≤ Size) :
    (b.alloc Size T count).1 = none := by
  rw [alloc_none_iff]
  unfold bump.required_size
  unfold bump.requested at hno hex
  have e1 : (T.size * count + b.padding T) % 2 ^ 64 = T.size * count + b.padding T :=
    Nat.mod_eq_of_lt (by omega)
  rw [e1, Nat.mod_eq_of_lt (by omega)]
  omega

/-- When the exact sum `current_pos + padding + sizeof(T) * count` stays below
`2 ^ 64`, a successful allocation is aligned, lies inside the buffer and moves
`current_pos` to its end. -/
theorem alloc_in_range_without_wrap (Size : Nat) (T : Ty) (count : Nat) (b : bump)
    (ha : 0 < T.align) (hno : b.current_pos + b.requested T count < 2 ^ 64)
    (hok : (b.alloc Size T count).1 ≠ none) :
    (b.alloc Size T count).1 = some (b.current_pos + b.padding T) ∧
    (b.current_pos + b.padding T) % T.align = 0 ∧
    b.current_pos + b.padding T + T.size * count ≤ Size ∧
    (b.alloc Size T count).2.current_pos = b.current_pos + b.padding T + T.size * count := by
  have hn : ¬ (b.current_pos + b.required_size T count) % 2 ^ 64 > Size := by
    rw [← alloc_none_iff]; exact hok
  unfold bump.requested at hno
  have e1 : b.required_size T count = T.size * count + b.padding T := by
    unfold bump.required_size
    exact Nat.mod_eq_of_lt (by omega)
  rw [e1, Nat.mod_eq_of_lt (by omega)] at hn
  rw [alloc_ok _ _ _ _ (by rw [e1, Nat.mod_eq_of_lt (by omega)]; exact hn)]
  have e2 : (b.current_pos + b.padding T) % 2 ^ 64 = b.current_pos + b.padding T :=
    Nat.mod_eq_of_lt (by omega)
  refine ⟨by rw [e2], padded_aligned T b ha, by omega, ?_⟩
  simp only [e2]
  exact Nat.mod_eq_of_lt (by omega)

theorem dealloc_eq (b : bump) :
    b.dealloc =
      if b.allocation_count = 0 then b
      else { current_pos := if b.allocation_count = 1 then 0 else b.current_pos,
             allocation_count := b.allocation_count - 1 } := by
  unfold bump.dealloc
  by_cases h0 : b.allocation_count = 0
  · simp [h0]
  · by_cases h1 : b.allocation_count = 1
    · simp [h1]
    · have hp : 0 < b.allocation_count := Nat.pos_of_ne_zero h0
      have hc : ¬ b.allocation_count - 1 = 0 := by omega
      simp [h0, h1, hp, hc]

theorem dealloc_iterate (n : Nat) (b : bump) (h : b.allocation_count = n) :
    bump.dealloc^[n] b =
      { current_pos := if n = 0 then b.current_pos else 0, allocation_count := 0 } := by
  induction n generalizing b with
  | zero => cases b; simp_all
  | succ n ih =>
    rw [Function.iterate_succ_apply]
    have hd : b.dealloc =
        { current_pos := (if n = 0 then 0 else b.current_pos), allocation_count := n } := by
      rw [dealloc_eq]; simp [h]
    rw [ih b.dealloc (by rw [hd])]
    rw [hd]
    by_cases hn : n = 0 <;> simp [hn]

theorem alloc_cases (Size : Nat) (T : Ty) (count : Nat) (b : bump) :
    b.alloc Size T count = (none, b) ∨
    ∃ off b1, b.alloc Size T count = (some off, b1) ∧
      b1.allocation_count = (b.allocation_count + 1) % 2 ^ 64 := by
  by_cases h : (b.current_pos + b.required_size T count) % 2 ^ 64 > Size
  · exact Or.inl (alloc_fail _ _ _ _ h)
  · exact Or.inr ⟨_, _, alloc_ok _ _ _ _ h, rfl⟩

theorem alloc_all_count (Size : Nat) (reqs : List (Ty × Nat)) (b : bump)
    (hb1 : b.allocation_count < 2 ^ 64) :
    (alloc_all Size reqs b).2.allocation_count
        = (b.allocation_count + successes (alloc_all Size reqs b).1) % 2 ^ 64 ∧
      successes (alloc_all Size reqs b).1 ≤ reqs.length ∧
      (successes (alloc_all Size reqs b).1 = 0 → (alloc_all Size reqs b).2 = b) := by
  induction reqs generalizing b with
  | nil =>
    refine ⟨?_, by simp [alloc_all, successes], fun _ => rfl⟩
    simp only [alloc_all, successes, List.filter, List.length_nil, Nat.add_zero]
    exact (Nat.mod_eq_of_lt hb1).symm
  | cons r rs ih =>
    rcases alloc_cases Size r.1 r.2 b with h | ⟨off, b1, h, hc⟩
    · have e : alloc_all Size (r :: rs) b
          = (none :: (alloc_all Size rs b).1, (alloc_all Size rs b).2) := by
        simp [alloc_all, h]
      obtain ⟨h1, h2, h3⟩ := ih b hb1
      have hsucc : successes (none :: (alloc_all Size rs b).1)
          = successes (alloc_all Size rs b).1 := by
        simp [successes]
      rw [e]
      simp only [hsucc, List.length_cons]
      exact ⟨h1, by omega, h3⟩
    · have hlt : b1.allocation_count < 2 ^ 64 := by
        rw [hc]; exact Nat.mod_lt _ (by norm_num)
      obtain ⟨h1, h2, -⟩ := ih b1 hlt
      have e : alloc_all Size (r :: rs) b
          = (some off :: (alloc_all Size rs b1).1, (alloc_all Size rs b1).2) := by
        simp [alloc_all, h]
      have hsucc : successes (some off :: (alloc_all Size rs b1).1)
          = successes (alloc_all Size rs b1).1 + 1 := by
        simp [successes]
      rw [e]
      simp only [hsucc, List.length_cons]
      refine ⟨?_, by omega, by intro hs; omega⟩
      rw [h1, hc]
      omega

theorem run_invariant (Size : Nat) (ops : List Op) (b : bump) (k : Nat)
    (hk : b.allocation_count ≤ k) (hz : b.allocation_count = 0 → b.current_pos = 0)
    (hlen : k + ops.length < 2 ^ 64) :
    (bump.run Size ops b).allocation_count ≤ k + ops.length ∧
    ((bump.run Size ops b).allocation_count = 0 → (bump.run Size ops b).current_pos = 0) := by
  induction ops generalizing b k with
  | nil => exact ⟨by simpa [bump.run] using hk, by simpa [bump.run] using hz⟩
  | cons op ops ih =>
    have e : bump.run Size (op :: ops) b = bump.run Size ops (b.step Size op) := rfl
    rw [e]
    simp only [List.length_cons] at hlen ⊢
    have hstep : (b.step Size op).allocation_count ≤ k + 1 ∧
        ((b.step Size op).allocation_count = 0 → (b.step Size op).current_pos = 0) := by
      cases op with
      | alloc T count =>
        simp only [bump.step]
        rcases alloc_cases Size T count b with h | ⟨off, b1, h, hc⟩
        · rw [h]; exact ⟨by simp only; omega, hz⟩
        · rw [h]
          have hm : (b.allocation_count + 1) % 2 ^ 64 = b.allocation_count + 1 :=
            Nat.mod_eq_of_lt (by omega)
          simp only [hc, hm]
          exact ⟨by omega, by intro h0; omega⟩
      | dealloc =>
        simp only [bump.step, dealloc_eq]
        by_cases h0 : b.allocation_count = 0
        · simp only [h0, if_true]; exact ⟨by omega, fun _ => hz h0⟩
        · by_cases h1 : b.allocation_count = 1
          · simp [h0, h1]
          · simp only [h0, h1, if_false]
            exact ⟨by omega, by intro hc; omega⟩
    obtain ⟨g1, g2⟩ := ih (b.step Size op) (k + 1) hstep.1 hstep.2 (by omega)
    exact ⟨by omega, g2⟩

/-- C13 (over-allocation), evaluated on the code: on a fresh `bump<1024>` the
call `alloc<int>(1000)` of the test is refused, but `alloc<int>(2^62)`, which
asks for `2^64` bytes and so exceeds the 1024 bytes that remain, is not:
`sizeof(int) * count` wraps to 0, the check passes, and the call returns the
pointer to `buffer[0]` and counts one allocation. -/
theorem over_allocation_not_refused :
    (bump.alloc 1024 Ty.int 1000 bump.fresh).1 = none ∧
    bump.fresh.requested Ty.int (2 ^ 62) = 2 ^ 64 ∧
    bump.fresh.requested Ty.int (2 ^ 62) > 1024 - bump.fresh.current_pos ∧
    bump.fresh.required_size Ty.int (2 ^ 62) = 0 ∧
    bump.alloc 1024 Ty.int (2 ^ 62) bump.fresh
      = (some 0, { current_pos := 0, allocation_count := 1 }) ∧
    (bump.alloc 1024 Ty.int (2 ^ 62) bump.fresh).1 ≠ none := by
  decide

/-- C14 (a successful allocation is usable), evaluated on the code: on a
fresh `bump<1024>` the call `alloc<int>(2^62)` returns a non-null pointer, at
offset 0, and the range of its `2^62` elements, `[0, 2^64)`, does not lie
inside `[0, 1024)`; even the element at index 256 is outside the buffer. -/
theorem successful_allocation_out_of_range :
    (bump.alloc 1024 Ty.int (2 ^ 62) bump.fresh).1 = some 0 ∧
    0 % Ty.int.align = 0 ∧
    ¬ (0 + Ty.int.size * 2 ^ 62 ≤ 1024) ∧
    (256 < 2 ^ 62 ∧ ¬ (0 + Ty.int.size * 256 < 1024)) := by
  decide

/-- C15 (dealloc and reset). `dealloc` leaves an allocator with count 0 as it
is; with count `c > 0` it sets the count to `c - 1`, sets `current_pos` to 0
when `c = 1` and leaves it unchanged otherwise. As many `dealloc` calls as the
count bring the count to 0, and `current_pos` to 0 if there was anything to
deallocate. For fewer than `2^64` `alloc` calls on a fresh allocator, one
`dealloc` per successful call gives the fresh allocator again, and the same
calls then return the same positions and leave the same state as the first
time. In any state reached from a fresh allocator by fewer than `2^64` calls
of `alloc` and `dealloc`, a count of 0 goes with `current_pos = 0`. -/
theorem dealloc_and_reset (Size : Nat) (b : bump) (reqs : List (Ty × Nat)) (ops : List Op)
    (hreqs : reqs.length < 2 ^ 64) (hops : ops.length < 2 ^ 64) :
    b.dealloc =
      (if b.allocation_count = 0 then b
       else { current_pos := if b.allocation_count = 1 then 0 else b.current_pos,
              allocation_count := b.allocation_count - 1 }) ∧
    bump.dealloc^[b.allocation_count] b =
      { current_pos := if b.allocation_count = 0 then b.current_pos else 0,
        allocation_count := 0 } ∧
    bump.dealloc^[successes (alloc_all Size reqs bump.fresh).1]
      (alloc_all Size reqs bump.fresh).2 = bump.fresh ∧
    alloc_all Size reqs (bump.dealloc^[successes (alloc_all Size reqs bump.fresh).1]
      (alloc_all Size reqs bump.fresh).2) = alloc_all Size reqs bump.fresh ∧
    ((bump.run Size ops bump.fresh).allocation_count ≠ 0 ∨
      bump.run Size ops bump.fresh = bump.fresh) := by
  have hreset : bump.dealloc^[successes (alloc_all Size reqs bump.fresh).1]
      (alloc_all Size reqs bump.fresh).2 = bump.fresh := by
    obtain ⟨h1, h2, h3⟩ := alloc_all_count Size reqs bump.fresh (by decide)
    have hc : (alloc_all Size reqs bump.fresh).2.allocation_count
        = successes (alloc_all Size reqs bump.fresh).1 := by
      rw [h1]
      have : bump.fresh.allocation_count = 0 := rfl
      rw [this, Nat.zero_add]
      exact Nat.mod_eq_of_lt (by omega)
    rw [dealloc_iterate _ _ hc]
    by_cases hs : successes (alloc_all Size reqs bump.fresh).1 = 0
    · have hb := h3 hs
      rw [hs]
      simp only [if_true, hb]
      rfl
    · simp only [hs, if_false]
      rfl
  refine ⟨dealloc_eq b, dealloc_iterate _ b rfl, hreset, by rw [hreset], ?_⟩
  obtain ⟨-, g2⟩ := run_invariant Size ops bump.fresh 0 (Nat.le_refl _) (fun _ => rfl)
    (by omega)
  by_cases hc : (bump.run Size ops bump.fresh).allocation_count = 0
  · right
    have hp := g2 hc
    cases hr : bump.run Size ops bump.fresh with
    | mk p c =>
      rw [hr] at hc hp
      simp only at hc hp
      rw [hc, hp]
      rfl
  · exact Or.inl hc

/-- Witness for C15: the test `test_dealloc_reset` on a `bump<1024>`:
`alloc<int>(10)` moves `current_pos` to 40, `dealloc` resets it, and the
second `alloc<int>(10)` returns the same position and moves to 40 again. -/
theorem dealloc_and_reset_witness :
    [(Ty.int, 10)].length < 2 ^ 64 ∧
    [Op.alloc Ty.int 10, Op.dealloc].length < 2 ^ 64 ∧
    alloc_all 1024 [(Ty.int, 10)] bump.fresh
      = ([some 0], { current_pos := 40, allocation_count := 1 }) ∧
    bump.dealloc^[successes (alloc_all 1024 [(Ty.int, 10)] bump.fresh).1]
      (alloc_all 1024 [(Ty.int, 10)] bump.fresh).2 = bump.fresh ∧
    alloc_all 1024 [(Ty.int, 10)]
      (bump.dealloc^[successes (alloc_all 1024 [(Ty.int, 10)] bump.fresh).1]
        (alloc_all 1024 [(Ty.int, 10)] bump.fresh).2)
      = alloc_all 1024 [(Ty.int, 10)] bump.fresh :=
  have h := dealloc_and_reset 1024 { current_pos := 40, allocation_count := 1 }
    [(Ty.int, 10)] [Op.alloc Ty.int 10, Op.dealloc] (by decide) (by decide)
  ⟨by decide, by decide, by decide, h.2.2.1, h.2.2.2.1⟩

/-- C19 (no overlap), evaluated on the code: on a fresh `bump<1024>` the calls
`alloc<uint8_t>(16)`, `alloc<uint8_t>(2^64 - 8)` and `alloc<uint8_t>(8)` all
succeed, with no `dealloc` in between. The second call moves `current_pos`
back from 16 to 8, and the third returns offset 8, so its bytes `[8, 16)` lie
inside the bytes `[0, 16)` of the first. -/
theorem allocations_overlap :
    alloc_all 1024 [(Ty.uint8_t, 16), (Ty.uint8_t, 2 ^ 64 - 8), (Ty.uint8_t, 8)] bump.fresh
      = ([some 0, some 16, some 8], { current_pos := 16, allocation_count := 3 }) ∧
    (bump.alloc 1024 Ty.uint8_t 16 bump.fresh).2.current_pos = 16 ∧
    (bump.alloc 1024 Ty.uint8_t (2 ^ 64 - 8)
      (bump.alloc 1024 Ty.uint8_t 16 bump.fresh).2).1 = some 16 ∧
    (bump.alloc 1024 Ty.uint8_t (2 ^ 64 - 8)
      (bump.alloc 1024 Ty.uint8_t 16 bump.fresh).2).2.current_pos = 8 ∧
    (0 ≤ 8 ∧ 8 < 0 + Ty.uint8_t.size * 16 ∧ 8 < 8 + Ty.uint8_t.size * 8) := by
  decide

/-- C20 (failed allocation is atomic). When `alloc` returns `nullptr`, the
allocator is exactly as before the call: `current_pos` and `allocation_count`
are unchanged. -/
theorem failed_alloc_atomic (Size : Nat) (T : Ty) (count : Nat) (b : bump)
    (h : (b.alloc Size T count).1 = none) :
    (b.alloc Size T count).2 = b ∧
    (b.alloc Size T count).2.current_pos = b.current_pos ∧
    (b.alloc Size T count).2.allocation_count = b.allocation_count := by
  have hf := alloc_fail Size T count b ((alloc_none_iff Size T count b).1 h)
  rw [hf]
  exact ⟨rfl, rfl, rfl⟩

/-- Witness for C20: `alloc<int>(1000)` on a `bump<1024>` that already holds
ten `int`. -/
theorem failed_alloc_atomic_witness :
    (bump.alloc 1024 Ty.int 1000 { current_pos := 40, allocation_count := 1 }).1 = none ∧
    (bump.alloc 1024 Ty.int 1000 { current_pos := 40, allocation_count := 1 }).2
      = { current_pos := 40, allocation_count := 1 } :=
  ⟨by decide,
    (failed_alloc_atomic 1024 Ty.int 1000 { current_pos := 40, allocation_count := 1 }
      (by decide)).1⟩

/-! ## The symmetric switch and the shared counter -/

theorem swap_context_same_slot (site rsp a : Nat) (mem : Nat → Context) :
    swap_context site rsp a a mem
      = .returns (Function.update mem a
          { mem a with env := some { site := site, rsp := rsp, live := false } }) := by
  unfold swap_context
  simp only []
  rw [swap_context_from]
  simp only [Function.update_same, longjmp, if_true, dite_true]
  rw [swap_context_from]
  simp [setjmp_return, Context.expired]

theorem swap_context_other_slot (site rsp old_ctx new_ctx : Nat) (mem : Nat → Context)
    (h : new_ctx ≠ old_ctx) :
    swap_context site rsp old_ctx new_ctx mem =
      match longjmp (mem new_ctx).env 1 with
      | some (t, val) =>
        if t = { site := site, rsp := rsp, live := true } then
          .returns (Function.update mem old_ctx
            { mem old_ctx with env := some { site := site, rsp := rsp, live := false } })
        else .jumps t val (Function.update mem old_ctx
            { mem old_ctx with env := some { site := site, rsp := rsp, live := false } })
      | none => .undefined (Function.update mem old_ctx
            { mem old_ctx with env := some { site := site, rsp := rsp, live := true } }) := by
  unfold swap_context
  simp only []
  rw [swap_context_from]
  simp only [dite_true, Function.update_noteq h]
  cases hl : longjmp (mem new_ctx).env 1 with
  | none => rfl
  | some p =>
    obtain ⟨t, val⟩ := p
    simp only []
    by_cases ht : t = { site := site, rsp := rsp, live := true }
    · rw [if_pos ht, if_pos ht, swap_context_from]
      simp [setjmp_return_ne, Context.expired]
    · rw [if_neg ht, if_neg ht]
      simp [Context.expired]

/-- C11 (symmetric switch), evaluated on the code. With `new_ctx` captured by
`get_context` (at any position, over any previous content) in a slot other
than `old_ctx`, `swap_context(old_ctx, new_ctx)` does not resume `new_ctx`:
its `longjmp` goes through an environment whose `get_context` call has
returned, and the call ends in undefined behaviour, as does the statement
`if (get_context(old_ctx) == 0) set_context(new_ctx);`. And whenever a call of
`swap_context` ends without undefined behaviour, the environment it leaves in
`old_ctx` belongs to that ended call, so a later `set_context(old_ctx)` has no
defined outcome and `swap_context` does not return through it. The concrete
case: `new_ctx` at address 2 captured at line 36, `old_ctx` the zeroed context
at address 1, the switch made at line 70. -/
theorem swap_context_resume_undefined (site rsp s2 r2 a d old_ctx new_ctx : Nat)
    (c : Context) (mem : Nat → Context) :
    (swap_context 70 8192 1 2
      (Function.update (fun _ => Context.zero) 2
        (get_context 36 4096 Context.zero).1)).isUndefined = true ∧
    (swap_context site rsp a (a + 1 + d)
      (Function.update mem (a + 1 + d) (get_context s2 r2 c).1)).isUndefined = true ∧
    (capture_then_resume site rsp a (a + 1 + d)
      (Function.update mem (a + 1 + d) (get_context s2 r2 c).1)).isUndefined = true ∧
    ((swap_context site rsp old_ctx new_ctx mem).isUndefined = true ∨
      set_context ((swap_context site rsp old_ctx new_ctx mem).mem old_ctx) = none) := by
  have key : ∀ (site rsp a d : Nat) (mem : Nat → Context),
      (swap_context site rsp a (a + 1 + d)
        (Function.update mem (a + 1 + d) (get_context s2 r2 c).1)).isUndefined = true := by
    intro site rsp a d mem
    rw [swap_context_other_slot _ _ _ _ _ (by omega)]
    simp [get_context, longjmp, Transfer.isUndefined]
  refine ⟨?_, key site rsp a d mem, ?_, ?_⟩
  · rw [swap_context_other_slot _ _ _ _ _ (by decide)]
    simp [get_context, longjmp, Transfer.isUndefined]
  · have hne : a + 1 + d ≠ a := by omega
    simp [capture_then_resume, get_context, set_context, longjmp, Function.update_noteq hne,
      Transfer.isUndefined]
  · by_cases h : new_ctx = old_ctx
    · subst h
      right
      rw [swap_context_same_slot]
      simp [Transfer.mem, set_context, longjmp]
    · rw [swap_context_other_slot _ _ _ _ _ h]
      cases hl : longjmp (mem new_ctx).env 1 with
      | none => left; rfl
      | some p =>
        obtain ⟨t, val⟩ := p
        right
        simp only []
        by_cases ht : t = { site := site, rsp := rsp, live := true }
        · rw [if_pos ht]; simp [Transfer.mem, set_context, longjmp]
        · rw [if_neg ht]; simp [Transfer.mem, set_context, longjmp]

/-- Counterexample to C12 as stated: with the counter at 10 the test ends
with the counter at 11, not 12, because `func2_with_data` prints the counter
and does not increment it; and with the counter at `INT_MAX` the increment of
`func1_with_data` overflows, so fiber 1 does not set the counter to
`INT_MAX + 1`. -/
theorem shared_counter_not_each_increments :
    (test_function_with_data { shared_data := 10, cout := [] }).map Suite.shared_data
      = some 11 ∧
    (func2_with_data { shared_data := 11, cout := [] }).shared_data ≠ 11 + 1 ∧
    (func1_with_data { shared_data := INT_MAX, cout := [] }).map Suite.shared_data
      ≠ some (INT_MAX + 1) ∧
    func1_with_data { shared_data := INT_MAX, cout := [] } = none := by
  decide

/-- C12 as amended. For every initial value `v` of the counter below
`INT_MAX`, `func1_with_data` followed by `func2_with_data` runs to the end;
fiber 1 prints `v` and sets the counter to `v + 1`; fiber 2 then prints
`v + 1` and leaves the counter as it is; the counter ends at `v + 1`. -/
theorem shared_counter_ordering (v : Int) (out : List (String × Option Int))
    (hv : v < INT_MAX) :
    func1_with_data { shared_data := v, cout := out }
      = some { shared_data := v + 1, cout := out ++ [("fiber 1: ", some v)] } ∧
    func2_with_data { shared_data := v + 1, cout := out ++ [("fiber 1: ", some v)] }
      = { shared_data := v + 1,
          cout := out ++ [("fiber 1: ", some v)] ++ [("fiber 2: ", some (v + 1))] } ∧
    test_function_with_data { shared_data := v, cout := out }
      = some { shared_data := v + 1,
               cout := out ++ [("", none), ("=== Test 2.2: Function with Data ===", none)]
                 ++ [("fiber 1: ", some v)] ++ [("fiber 2: ", some (v + 1))] } ∧
    (∀ st : Suite, (func2_with_data st).shared_data = st.shared_data) := by
  have h1 : ∀ o : List (String × Option Int), func1_with_data { shared_data := v, cout := o }
      = some { shared_data := v + 1, cout := o ++ [("fiber 1: ", some v)] } := by
    intro o
    unfold func1_with_data
    have : v + 1 ≤ INT_MAX := by omega
    simp [this]
  refine ⟨h1 out, rfl, ?_, fun _ => rfl⟩
  unfold test_function_with_data
  simp only [h1]
  rfl

/-- Witness for C12 as amended: the value 10 of the test. -/
theorem shared_counter_ordering_witness :
    (10 : Int) < INT_MAX ∧
    test_function_with_data { shared_data := 10, cout := [] }
      = some { shared_data := 11,
               cout := [("", none), ("=== Test 2.2: Function with Data ===", none),
                 ("fiber 1: ", some 10), ("fiber 2: ", some 11)] } :=
  ⟨by decide, (shared_counter_ordering 10 [] (by decide)).2.2.1⟩

/-! ## Reference counting -/

theorem cell_lt {β : Type} (l : List (Option β)) (a : Nat) (v : β) (h : cell l a = some v) :
    a < l.length ∧ l[a]? = some (some v) := by
  unfold cell at h
  split at h
  · rename_i w hw
    simp only [Option.some.injEq] at h
    subst h
    exact ⟨(List.getElem?_eq_some.1 hw).1, hw⟩
  · simp at h

theorem cell_of_getElem? {β : Type} (l : List (Option β)) (a : Nat) (v : Option β)
    (h : l[a]? = some v) : cell l a = v := by
  unfold cell
  rw [h]
  cases v <;> rfl

theorem cell_ge {β : Type} (l : List (Option β)) (a : Nat) (h : l.length ≤ a) :
    cell l a = none := by
  unfold cell
  rw [List.getElem?_eq_none h]

theorem cell_set_self {β : Type} (l : List (Option β)) (a : Nat) (v : Option β)
    (h : a < l.length) : cell (l.set a v) a = v :=
  cell_of_getElem? _ _ _ (by simp [List.getElem?_set, h])

theorem cell_set_ne {β : Type} (l : List (Option β)) (a b : Nat) (v : Option β)
    (h : a ≠ b) : cell (l.set a v) b = cell l b := by
  unfold cell
  rw [List.getElem?_set_ne h]

theorem cell_append_left {β : Type} (l m : List (Option β)) (a : Nat) (h : a < l.length) :
    cell (l ++ m) a = cell l a := by
  unfold cell
  rw [List.getElem?_append_left h]

theorem cell_append_self {β : Type} (l : List (Option β)) (v : Option β) :
    cell (l ++ [v]) l.length = v :=
  cell_of_getElem? _ _ _ (by simp)

theorem cell_append_gt {β : Type} (l : List (Option β)) (v : Option β) (a : Nat)
    (h : l.length < a) : cell (l ++ [v]) a = none :=
  cell_ge _ _ (by simp; omega)

theorem cell_map {β γ : Type} (f : β → γ) (l : List (Option β)) (a : Nat) :
    cell (l.map (Option.map f)) a = (cell l a).map f := by
  unfold cell
  rw [List.getElem?_map]
  cases h : l[a]? with
  | none => rfl
  | some v => cases v <;> rfl

theorem handles_append (objs : List (Option Nat)) (b x : Nat) :
    handles_to (objs ++ [some b]) x = handles_to objs x + (if x = b then 1 else 0) := by
  unfold handles_to
  rw [List.count_append]
  by_cases h : x = b
  · subst h; simp
  · have : ¬ b = x := fun e => h e.symm
    simp [h, this, List.count_cons]

theorem handles_set_dead (objs : List (Option Nat)) (this b x : Nat)
    (h : objs[this]? = some none) :
    handles_to (objs.set this (some b)) x = handles_to objs x + (if x = b then 1 else 0) := by
  obtain ⟨hlt, he⟩ := List.getElem?_eq_some.1 h
  unfold handles_to
  rw [List.count_set _ _ _ _ hlt, he]
  by_cases hx : x = b
  · subst hx; simp
  · have : ¬ b = x := fun e => hx e.symm
    simp [hx, this]

theorem handles_set_kill (objs : List (Option Nat)) (this a x : Nat)
    (h : objs[this]? = some (some a)) :
    handles_to (objs.set this none) x + (if x = a then 1 else 0) = handles_to objs x := by
  obtain ⟨hlt, he⟩ := List.getElem?_eq_some.1 h
  have hmem : some a ∈ objs := he ▸ List.getElem_mem hlt
  unfold handles_to
  rw [List.count_set _ _ _ _ hlt, he]
  by_cases hx : x = a
  · subst hx
    have hpos : 0 < List.count (some x) objs := List.count_pos_iff.2 hmem
    simp
    omega
  · have : ¬ a = x := fun e => hx e.symm
    simp [hx, this]

theorem counted_new (rc : List (Option Int)) (cnt cnt1 : Nat → Nat)
    (hc : ∀ x, cnt1 x = cnt x + (if x = rc.length then 1 else 0)) (h : counted rc cnt) :
    counted (rc ++ [some 1]) cnt1 := by
  intro x
  have hx := h x
  rcases Nat.lt_trichotomy x rc.length with hlt | heq | hgt
  · rw [cell_append_left _ _ _ hlt, hc x]
    have : ¬ x = rc.length := by omega
    simpa [this] using hx
  · subst heq
    rw [cell_append_self, hc]
    rw [cell_ge rc rc.length (Nat.le_refl _)] at hx
    simp only at hx ⊢
    simp [hx]
  · rw [cell_append_gt _ _ _ hgt, hc x]
    rw [cell_ge rc x (by omega)] at hx
    have : ¬ x = rc.length := by omega
    simpa [this] using hx

theorem counted_share (rc : List (Option Int)) (cnt cnt1 : Nat → Nat) (a : Nat) (n : Int)
    (ha : cell rc a = some n)
    (hc : ∀ x, cnt1 x = cnt x + (if x = a then 1 else 0)) (h : counted rc cnt) :
    counted (rc.set a (some (n + 1))) cnt1 := by
  intro x
  have hx := h x
  by_cases e : x = a
  · subst e
    rw [cell_set_self _ _ _ (cell_lt _ _ _ ha).1, hc]
    rw [ha] at hx
    simp only at hx ⊢
    simp only [if_true]
    push_cast
    omega
  · rw [cell_set_ne _ _ _ _ (fun e1 => e e1.symm), hc x]
    simpa [e] using hx

theorem counted_drop (rc : List (Option Int)) (cnt cnt1 : Nat → Nat) (a : Nat) (n : Int)
    (ha : cell rc a = some n)
    (hc : ∀ x, cnt1 x + (if x = a then 1 else 0) = cnt x) (h : counted rc cnt) :
    counted (rc.set a (if n - 1 = 0 then none else some (n - 1))) cnt1 := by
  intro x
  have hx := h x
  have hcx := hc x
  by_cases e : x = a
  · subst e
    rw [cell_set_self _ _ _ (cell_lt _ _ _ ha).1]
    rw [ha] at hx
    simp only at hx
    simp only [if_true] at hcx
    by_cases hz : n - 1 = 0
    · simp only [hz, if_true]
      omega
    · simp only [hz, if_false]
      omega
  · rw [cell_set_ne _ _ _ _ (fun e1 => e e1.symm)]
    simp only [e, if_false, Nat.add_zero] at hcx
    rw [hcx]
    exact hx

theorem counts_of_block (st : Strings) (a : Nat) (d : my_string.Data)
    (h : st.block a = some d) : cell st.counts a = some d.ref_count := by
  unfold Strings.counts
  rw [cell_map]
  unfold Strings.block at h
  rw [h]; rfl

theorem data_ctor_ref (s : List Char) (d : my_string.Data)
    (h : my_string.Data.ctor s = some d) : d.ref_count = 1 := by
  unfold my_string.Data.ctor at h
  split at h
  · simp only [Option.some.injEq] at h
    rw [← h]
  · simp at h

theorem inv_ctor (s : List Char) (st st1 : Strings) (h : Nat)
    (hop : my_string.ctor s st = some (h, st1)) (hinv : st.Inv) : st1.Inv := by
  unfold my_string.ctor at hop
  cases hd : my_string.Data.ctor s with
  | none => simp [hd] at hop
  | some d =>
    simp only [hd, Option.bind_eq_bind, Option.some_bind, Option.some.injEq,
      Prod.mk.injEq] at hop
    obtain ⟨-, rfl⟩ := hop
    unfold Strings.Inv Strings.counts
    simp only [List.map_append, List.map_cons, List.map_nil, Option.map_some',
      data_ctor_ref s d hd]
    apply counted_new _ (handles_to st.objs) _ _ hinv
    intro x
    rw [handles_append]
    simp [Strings.counts]

theorem inv_copy (other : Nat) (st st1 : Strings) (h : Nat)
    (hop : my_string.copy other st = some (h, st1)) (hinv : st.Inv) : st1.Inv := by
  unfold my_string.copy at hop
  cases ha : st.data other with
  | none => simp [ha] at hop
  | some a =>
    cases hd : st.block a with
    | none => simp [ha, hd] at hop
    | some d =>
      simp only [ha, hd, Option.bind_eq_bind, Option.some_bind] at hop
      split at hop
      · simp only [Option.some.injEq, Prod.mk.injEq] at hop
        obtain ⟨-, rfl⟩ := hop
        unfold Strings.Inv Strings.counts
        simp only [List.map_set, Option.map_some']
        exact counted_share _ (handles_to st.objs) _ a d.ref_count (counts_of_block st a d hd)
          (fun x => handles_append st.objs a x) hinv
      · simp at hop

theorem inv_dtor (this : Nat) (st st1 : Strings)
    (hop : my_string.dtor this st = some st1) (hinv : st.Inv) : st1.Inv := by
  unfold my_string.dtor at hop
  cases ha : st.data this with
  | none => simp [ha] at hop
  | some a =>
    cases hd : st.block a with
    | none => simp [ha, hd] at hop
    | some d =>
      simp only [ha, hd, Option.bind_eq_bind, Option.some_bind] at hop
      split at hop
      · simp only [Option.some.injEq] at hop
        subst hop
        unfold Strings.Inv Strings.counts
        simp only [List.map_set]
        have hm : Option.map my_string.Data.ref_count
            (if d.ref_count - 1 = 0 then none
              else some { d with ref_count := d.ref_count - 1 })
            = (if d.ref_count - 1 = 0 then none else some (d.ref_count - 1)) := by
          split <;> rfl
        rw [hm]
        exact counted_drop _ (handles_to st.objs) _ a d.ref_count (counts_of_block st a d hd)
          (fun x => handles_set_kill st.objs this a x (cell_lt _ _ _ ha).2) hinv
      · simp at hop

theorem set_same {β : Type} (l : List β) (a : Nat) (v : β) (h : l[a]? = some v) :
    l.set a v = l := by
  apply List.ext_getElem?
  intro i
  rw [List.getElem?_set]
  by_cases e : a = i
  · subst e
    simp [(List.getElem?_eq_some.1 h).1, h]
  · simp [e]

theorem counts_write (st : Strings) (a : Nat) (d : my_string.Data) (s : List Char)
    (h : st.block a = some d) :
    Strings.counts { st with heap := st.heap.set a (some { d with str := s }) }
      = st.counts := by
  unfold Strings.counts
  simp only [List.map_set, Option.map_some']
  apply set_same
  rw [List.getElem?_map, (cell_lt _ _ _ h).2]
  rfl

theorem handles_repoint (objs : List (Option Nat)) (this a b x : Nat)
    (h : objs[this]? = some (some a)) :
    handles_to (objs.set this (some b)) x
      = handles_to (objs.set this none) x + (if x = b then 1 else 0) := by
  have hlt := (List.getElem?_eq_some.1 h).1
  rw [← List.set_set none (some b) objs this]
  exact handles_set_dead _ this b x (by simp [List.getElem?_set, hlt])

theorem inv_assign (this other : Nat) (st st1 : Strings)
    (hop : my_string.assign this other st = some st1) (hinv : st.Inv) : st1.Inv := by
  unfold my_string.assign at hop
  by_cases hne : this ≠ other
  · simp only [hne, ne_eq, not_false_eq_true, if_true] at hop
    cases ha : st.data this with
    | none => simp [ha] at hop
    | some a =>
      cases hd : st.block a with
      | none => simp [ha, hd] at hop
      | some d =>
        simp only [ha, hd, Option.bind_eq_bind, Option.some_bind] at hop
        split at hop
        · cases hb : st.data other with
          | none => simp [hb] at hop
          | some b =>
            simp only [hb, Option.some_bind] at hop
            cases he : cell (st.heap.set a (if d.ref_count - 1 = 0 then none
                else some { d with ref_count := d.ref_count - 1 })) b with
            | none => simp [he] at hop
            | some e =>
              simp only [he, Option.some_bind] at hop
              split at hop
              · simp only [Option.some.injEq] at hop
                subst hop
                have hm : Option.map my_string.Data.ref_count
                    (if d.ref_count - 1 = 0 then none
                      else some { d with ref_count := d.ref_count - 1 })
                    = (if d.ref_count - 1 = 0 then none else some (d.ref_count - 1)) := by
                  split <;> rfl
                have h1 := counted_drop _ (handles_to st.objs)
                  (handles_to (st.objs.set this none)) a d.ref_count
                  (counts_of_block st a d hd)
                  (fun x => handles_set_kill st.objs this a x (cell_lt _ _ _ ha).2) hinv
                have hcell : cell (st.counts.set a (if d.ref_count - 1 = 0 then none
                    else some (d.ref_count - 1))) b = some e.ref_count := by
                  have := cell_map my_string.Data.ref_count
                    (st.heap.set a (if d.ref_count - 1 = 0 then none
                      else some { d with ref_count := d.ref_count - 1 })) b
                  rw [he, List.map_set, hm] at this
                  exact this
                have h2 := counted_share _ _ (handles_to (st.objs.set this (some b))) b
                  e.ref_count hcell
                  (fun x => handles_repoint st.objs this a b x (cell_lt _ _ _ ha).2) h1
                unfold Strings.Inv Strings.counts
                simp only [List.map_set, Option.map_some', hm]
                exact h2
              · simp at hop
        · simp at hop
  · simp only [hne, if_false, Option.some.injEq] at hop
    subst hop
    exact hinv

theorem inv_detach (this a : Nat) (d : my_string.Data) (st stm : Strings)
    (ha : st.data this = some a) (hd : st.block a = some d)
    (hm : (if d.ref_count > 1 then
            (my_string.Data.ctor d.str).bind fun new_data =>
              some { st with heap := st.heap.set a (some { d with ref_count := d.ref_count - 1 })
                               ++ [some new_data],
                             objs := st.objs.set this (some st.heap.length) }
          else some st) = some stm)
    (hinv : st.Inv) : stm.Inv := by
  split at hm
  · rename_i hgt
    cases hn : my_string.Data.ctor d.str with
    | none => simp [hn] at hm
    | some nd =>
      simp only [hn, Option.some_bind, Option.some.injEq] at hm
      subst hm
      have h1 := counted_drop _ (handles_to st.objs)
        (handles_to (st.objs.set this none)) a d.ref_count
        (counts_of_block st a d hd)
        (fun x => handles_set_kill st.objs this a x (cell_lt _ _ _ ha).2) hinv
      have hz : ¬ d.ref_count - 1 = 0 := by omega
      simp only [hz, if_false] at h1
      have h2 := counted_new _ _ (handles_to (st.objs.set this (some st.heap.length))) ?_ h1
      · unfold Strings.Inv Strings.counts
        simp only [List.map_append, List.map_set, List.map_cons, List.map_nil,
          Option.map_some', data_ctor_ref _ nd hn]
        exact h2
      · intro x
        rw [handles_repoint st.objs this a st.heap.length x (cell_lt _ _ _ ha).2]
        simp [Strings.counts]
  · simp only [Option.some.injEq] at hm
    subst hm
    exact hinv

theorem setChar_steps (this : Nat) (index : Int) (c : Char) (st st1 : Strings)
    (hop : my_string.setChar this index c st = some st1) :
    ∃ a d stm a1 d1, st.data this = some a ∧ st.block a = some d ∧
      (if d.ref_count > 1 then
            (my_string.Data.ctor d.str).bind fun new_data =>
              some { st with heap := st.heap.set a (some { d with ref_count := d.ref_count - 1 })
                               ++ [some new_data],
                             objs := st.objs.set this (some st.heap.length) }
          else some st) = some stm ∧
      stm.data this = some a1 ∧ stm.block a1 = some d1 ∧
      (0 ≤ index ∧ index < d1.str.length) ∧
      st1 = { stm with heap := stm.heap.set a1 (some { d1 with str := d1.str.set index.toNat c }) } := by
  unfold my_string.setChar at hop
  simp only [Option.bind_eq_bind, Option.bind_eq_some] at hop
  obtain ⟨a, ha, d, hd, stm, hm, a1, ha1, d1, hd1, hfin⟩ := hop
  refine ⟨a, d, stm, a1, d1, ha, hd, ?_, ha1, hd1, ?_⟩
  · rw [← hm]
  · split at hfin
    · rename_i hr
      simp only [Option.some.injEq] at hfin
      exact ⟨hr, hfin.symm⟩
    · simp at hfin

theorem inv_setChar (this : Nat) (index : Int) (c : Char) (st st1 : Strings)
    (hop : my_string.setChar this index c st = some st1) (hinv : st.Inv) : st1.Inv := by
  obtain ⟨a, d, stm, a1, d1, ha, hd, hm, ha1, hd1, -, rfl⟩ := setChar_steps _ _ _ _ _ hop
  have hi := inv_detach this a d st stm ha hd hm hinv
  unfold Strings.Inv
  rw [counts_write stm a1 d1 _ hd1]
  exact hi

theorem inv_print (this : Nat) (st st1 : Strings)
    (hop : my_string.print this st = some st1) (hinv : st.Inv) : st1.Inv := by
  unfold my_string.print at hop
  cases hs : my_string.chars this st with
  | none => simp [hs] at hop
  | some s =>
    simp only [hs, Option.bind_eq_bind, Option.some_bind, Option.some.injEq] at hop
    subst hop
    exact hinv

theorem inv_reachable (st : Strings) (h : st.Reachable) : st.Inv := by
  induction h with
  | empty =>
    intro a
    simp [Strings.empty, Strings.counts, cell, handles_to]
  | ctor s st st1 h _ hop ih => exact inv_ctor s st st1 h hop ih
  | copy other st st1 h _ hop ih => exact inv_copy other st st1 h hop ih
  | dtor this st st1 _ hop ih => exact inv_dtor this st st1 hop ih
  | assign this other st st1 _ hop ih => exact inv_assign this other st st1 hop ih
  | setChar this index c st st1 _ hop ih => exact inv_setChar this index c st st1 hop ih
  | print this st st1 _ hop ih => exact inv_print this st st1 hop ih
  | out l st _ ih => exact ih

theorem takeWhile_front (s rest : List Char) (h : NUL ∉ s) :
    (s ++ NUL :: rest).takeWhile (fun c => c != NUL) = s := by
  induction s with
  | nil => simp [List.takeWhile]
  | cons x xs ih =>
    have hx : x ≠ NUL := fun e => h (by simp [e])
    have hxs : NUL ∉ xs := fun e => h (by simp [e])
    have hb : (x != NUL) = true := by simp [hx]
    rw [List.cons_append, List.takeWhile_cons, hb, if_pos rfl, ih hxs]

theorem strlen_front (s rest : List Char) (h : NUL ∉ s) :
    strlen (s ++ NUL :: rest) = some s.length := by
  unfold strlen
  have hm : NUL ∈ s ++ NUL :: rest := by simp
  rw [if_pos hm, takeWhile_front s rest h]

theorem data_ctor_front (s rest : List Char) (h : NUL ∉ s) :
    my_string.Data.ctor (s ++ NUL :: rest) = some { str := s ++ [NUL], ref_count := 1 } := by
  unfold my_string.Data.ctor
  rw [strlen_front s rest h]
  simp

theorem not_mem_set (s : List Char) (i : Nat) (c : Char) (h : NUL ∉ s) (hc : c ≠ NUL) :
    NUL ∉ s.set i c := by
  intro hm
  rcases List.mem_or_eq_of_mem_set hm with h1 | h1
  · exact h h1
  · exact hc h1.symm

theorem set_front (s t : List Char) (i : Nat) (c : Char) (h : i < s.length) :
    (s ++ t).set i c = s.set i c ++ t := by
  rw [List.set_append, if_pos h]

theorem chars_of_block (st : Strings) (this a : Nat) (d : my_string.Data)
    (s rest : List Char) (ha : st.data this = some a) (hd : st.block a = some d)
    (hs : d.str = s ++ NUL :: rest) (h : NUL ∉ s) :
    my_string.chars this st = some s := by
  unfold my_string.chars
  simp [ha, hd, hs, strlen_front s rest h]

theorem get_ref_count_of_block (st : Strings) (this a : Nat) (d : my_string.Data)
    (ha : st.data this = some a) (hd : st.block a = some d) :
    my_string.get_ref_count this st = some d.ref_count := by
  unfold my_string.get_ref_count
  simp [ha, hd]

theorem setChar_unshared (st : Strings) (this a : Nat) (d : my_string.Data) (i : Nat)
    (c : Char) (ha : st.data this = some a) (hd : st.block a = some d)
    (hr : ¬ d.ref_count > 1) (hi : i < d.str.length) :
    my_string.setChar this i c st
      = some { st with heap := st.heap.set a (some { d with str := d.str.set i c }) } := by
  unfold my_string.setChar
  have hi2 : (0 : Int) ≤ (i : Int) ∧ (i : Int) < (d.str.length : Int) := by omega
  simp [ha, hd, hr, hi2, hi]

theorem setChar_shared (st : Strings) (this a : Nat) (d nd : my_string.Data) (i : Nat)
    (c : Char) (ha : st.data this = some a) (hd : st.block a = some d)
    (hr : d.ref_count > 1) (hn : my_string.Data.ctor d.str = some nd)
    (hi : i < nd.str.length) :
    my_string.setChar this i c st
      = some { st with
          heap := st.heap.set a (some { d with ref_count := d.ref_count - 1 })
            ++ [some { nd with str := nd.str.set i c }],
          objs := st.objs.set this (some st.heap.length) } := by
  unfold my_string.setChar
  have hi2 : (0 : Int) ≤ (i : Int) ∧ (i : Int) < (nd.str.length : Int) := by omega
  have hthis : this < st.objs.length := (cell_lt _ _ _ ha).1
  have h1 : Strings.data { st with
      heap := st.heap.set a (some { d with ref_count := d.ref_count - 1 }) ++ [some nd],
      objs := st.objs.set this (some st.heap.length) } this = some st.heap.length := by
    unfold Strings.data
    exact cell_set_self _ _ _ hthis
  have h2 : Strings.block { st with
      heap := st.heap.set a (some { d with ref_count := d.ref_count - 1 }) ++ [some nd],
      objs := st.objs.set this (some st.heap.length) } st.heap.length = some nd := by
    unfold Strings.block
    have := cell_append_self (st.heap.set a (some { d with ref_count := d.ref_count - 1 }))
      (some nd)
    simpa using this
  simp only [ha, hd, hr, hn, if_true, Option.bind_eq_bind, Option.some_bind, h1, h2, hi2,
    and_self, Int.toNat_ofNat]
  congr 2
  have hl : (st.heap.set a (some { d with ref_count := d.ref_count - 1 })).length
      = st.heap.length := by simp
  rw [List.set_append, if_neg (by omega), hl, Nat.sub_self]
  rfl

/-! ## The reference-counted string -/

/-- C16 (reference-count invariant). In every state reachable from the empty
state through the constructor from a C string, the copy constructor,
`operator=` (self-assignment included), `setChar`, the destructor and output,
every live `Data` block has a `ref_count` equal to the number of live
`my_string` objects whose `data` points to it, and at least 1; an address
without a live block has no object pointing to it; every live object points to
a live block. The destructor of a live object is defined, and the block it
pointed to is deleted by it exactly when the decremented count is 0, every
other block being left as it is. In `test_my_string` the counts printed are
1, 2 for the copy made inside the scope, and 1 again when the scope ends. -/
theorem ref_count_invariant (st : Strings) (h : st.Reachable) :
    (∀ a d, st.block a = some d →
      d.ref_count = (handles_to st.objs a : Int) ∧ 1 ≤ d.ref_count) ∧
    (∀ a, st.block a = none → handles_to st.objs a = 0) ∧
    (∀ this a, st.data this = some a → (st.block a).isSome = true) ∧
    (∀ this a d, st.data this = some a → st.block a = some d →
      ∃ st1, my_string.dtor this st = some st1 ∧
        (st1.block a = none ↔ d.ref_count - 1 = 0) ∧
        (st1.block a).map my_string.Data.ref_count
          = (if d.ref_count - 1 = 0 then none else some (d.ref_count - 1)) ∧
        (∀ x, x ≠ a → st1.block x = st.block x)) ∧
    (test_my_string Strings.empty).map Strings.cout
      = some [Line.msg "" none,
          Line.msg "=== Test 4.1: my_string Sharing and Scope ===" none,
          Line.ref 1, Line.ref 2, Line.msg "Reference count inside scope: " (some 2),
          Line.ref 1, Line.msg "Reference count after scope: " (some 1),
          Line.str "HEllo world".toList, Line.ref 0] := by
  have hinv := inv_reachable st h
  have hblock : ∀ a, cell st.counts a = (st.block a).map my_string.Data.ref_count := by
    intro a
    unfold Strings.counts Strings.block
    exact cell_map _ _ _
  have h1 : ∀ a d, st.block a = some d →
      d.ref_count = (handles_to st.objs a : Int) ∧ 1 ≤ d.ref_count := by
    intro a d hd
    have := hinv a
    rw [hblock a, hd] at this
    exact this
  have h2 : ∀ a, st.block a = none → handles_to st.objs a = 0 := by
    intro a hd
    have := hinv a
    rw [hblock a, hd] at this
    exact this
  have h3 : ∀ this a, st.data this = some a → (st.block a).isSome = true := by
    intro this a ha
    cases hd : st.block a with
    | some d => rfl
    | none =>
      have hz := h2 a hd
      have hmem : some a ∈ st.objs := by
        obtain ⟨hl, he⟩ := List.getElem?_eq_some.1 (cell_lt _ _ _ ha).2
        exact he ▸ List.getElem_mem hl
      have hpos : 0 < List.count (some a) st.objs := List.count_pos_iff.2 hmem
      unfold handles_to at hz
      omega
  refine ⟨h1, h2, h3, ?_, by decide⟩
  intro this a d ha hd
  have hge : INT_MIN ≤ d.ref_count - 1 := by
    have := (h1 a d hd).2
    unfold INT_MIN
    omega
  have hlt : a < st.heap.length := (cell_lt _ _ _ hd).1
  have hdt : my_string.dtor this st = some
      { heap := st.heap.set a
          (if d.ref_count - 1 = 0 then none else some { d with ref_count := d.ref_count - 1 }),
        objs := st.objs.set this none,
        cout := st.cout ++ [Line.ref (d.ref_count - 1)] } := by
    simp [my_string.dtor, ha, hd, hge]
  refine ⟨_, hdt, ?_, ?_, ?_⟩
  · simp only [Strings.block, cell_set_self _ _ _ hlt]
    by_cases hz : d.ref_count - 1 = 0 <;> simp [hz]
  · simp only [Strings.block, cell_set_self _ _ _ hlt]
    by_cases hz : d.ref_count - 1 = 0 <;> simp [hz]
  · intro x hx
    simp only [Strings.block]
    exact cell_set_ne _ _ _ _ (fun e => hx e.symm)

/-- Witness for C16: the state inside the scope of `test_my_string`, where
`s` and its copy `t` share one block with count 2. -/
theorem ref_count_invariant_witness :
    Strings.Reachable
      { heap := [some { str := c_str "Hello world", ref_count := 2 }],
        objs := [some 0, some 0], cout := [Line.ref 1, Line.ref 2] } ∧
    (∀ a d, Strings.block
        { heap := [some { str := c_str "Hello world", ref_count := 2 }],
          objs := [some 0, some 0], cout := [Line.ref 1, Line.ref 2] } a = some d →
      d.ref_count = (handles_to [some 0, some 0] a : Int) ∧ 1 ≤ d.ref_count) :=
  have hr : Strings.Reachable
      { heap := [some { str := c_str "Hello world", ref_count := 2 }],
        objs := [some 0, some 0], cout := [Line.ref 1, Line.ref 2] } :=
    Strings.Reachable.copy 0
      { heap := [some { str := c_str "Hello world", ref_count := 1 }],
        objs := [some 0], cout := [Line.ref 1] } _ 1
      (Strings.Reachable.ctor (c_str "Hello world") Strings.empty _ 0
        Strings.Reachable.empty (by decide))
      (by decide)
  ⟨hr, (ref_count_invariant _ hr).1⟩

/-- C18 (setChar result). A live `my_string` in a reachable state holds the
characters `s` (no terminator among them) followed by the terminator. For
every index `i` below the length of `s` and every character `c` other than the
terminator, `setChar(i, c)` is defined; afterwards the object shows `s` with
position `i` replaced by `c` and every other position unchanged, `print`
writes exactly that, and the object's `ref_count` is 1, whether the block was
shared before the call or not. -/
theorem setChar_result (st : Strings) (this a : Nat) (d : my_string.Data)
    (s rest : List Char) (i : Nat) (c : Char)
    (hreach : st.Reachable) (ha : st.data this = some a) (hd : st.block a = some d)
    (hs : d.str = s ++ NUL :: rest) (hnul : NUL ∉ s) (hi : i < s.length) (hc : c ≠ NUL) :
    my_string.chars this st = some s ∧
    (my_string.setChar this i c st).isSome = true ∧
    (my_string.setChar this i c st).bind (my_string.chars this) = some (s.set i c) ∧
    ((my_string.setChar this i c st).bind (my_string.print this)).map Strings.cout
      = some (st.cout ++ [Line.str (s.set i c)]) ∧
    (my_string.setChar this i c st).bind (my_string.get_ref_count this) = some 1 ∧
    (my_string.setChar this i c st).bind (my_string.get_ref_count this)
      = some (if d.ref_count > 1 then 1 else d.ref_count) ∧
    (s.set i c)[i]? = some c ∧
    (∀ j, j ≠ i → (s.set i c)[j]? = s[j]?) ∧
    (s.set i c).length = s.length := by
  have hinv := inv_reachable st hreach
  have hrc : 1 ≤ d.ref_count := by
    have := hinv a
    rw [counts_of_block st a d hd] at this
    exact this.2
  have hset : NUL ∉ s.set i c := not_mem_set s i c hnul hc
  have hthis : this < st.objs.length := (cell_lt _ _ _ ha).1
  have halt : a < st.heap.length := (cell_lt _ _ _ hd).1
  have hfinal : ∀ st1 : Strings, ∀ a1 : Nat, ∀ d1 : my_string.Data, ∀ r1 : List Char,
      my_string.setChar this i c st = some st1 →
      st1.data this = some a1 → st1.block a1 = some d1 → d1.str = s.set i c ++ NUL :: r1 →
      d1.ref_count = 1 → st1.cout = st.cout →
      (my_string.setChar this i c st).isSome = true ∧
      (my_string.setChar this i c st).bind (my_string.chars this) = some (s.set i c) ∧
      ((my_string.setChar this i c st).bind (my_string.print this)).map Strings.cout
        = some (st.cout ++ [Line.str (s.set i c)]) ∧
      (my_string.setChar this i c st).bind (my_string.get_ref_count this) = some 1 := by
    intro st1 a1 d1 r1 he ha1 hd1 hs1 hr1 hco
    have hch := chars_of_block st1 this a1 d1 (s.set i c) r1 ha1 hd1 hs1 hset
    rw [he]
    refine ⟨rfl, by simpa using hch, ?_, ?_⟩
    · simp [my_string.print, hch, hco]
    · simp [get_ref_count_of_block st1 this a1 d1 ha1 hd1, hr1]
  have hmain : (my_string.setChar this i c st).isSome = true ∧
      (my_string.setChar this i c st).bind (my_string.chars this) = some (s.set i c) ∧
      ((my_string.setChar this i c st).bind (my_string.print this)).map Strings.cout
        = some (st.cout ++ [Line.str (s.set i c)]) ∧
      (my_string.setChar this i c st).bind (my_string.get_ref_count this) = some 1 := by
    by_cases hr : d.ref_count > 1
    · have hn : my_string.Data.ctor d.str = some { str := s ++ [NUL], ref_count := 1 } := by
        rw [hs]; exact data_ctor_front s rest hnul
      have he := setChar_shared st this a d _ i c ha hd hr hn
        (by simp only [List.length_append, List.length_singleton]; omega)
      refine hfinal _ st.heap.length
        { str := (s ++ [NUL]).set i c, ref_count := 1 } [] he ?_ ?_ ?_ rfl rfl
      · exact cell_set_self _ _ _ hthis
      · have := cell_append_self (st.heap.set a (some { d with ref_count := d.ref_count - 1 }))
          (some ({ str := (s ++ [NUL]).set i c, ref_count := 1 } : my_string.Data))
        simpa [Strings.block] using this
      · exact set_front s [NUL] i c hi
    · have he := setChar_unshared st this a d i c ha hd hr
        (by rw [hs]; simp only [List.length_append, List.length_cons]; omega)
      refine hfinal _ a { d with str := d.str.set i c } rest he ha ?_ ?_
        (by simp only; omega) rfl
      · exact cell_set_self _ _ _ halt
      · simp only [hs]
        exact set_front s (NUL :: rest) i c hi
  refine ⟨chars_of_block st this a d s rest ha hd hs hnul, hmain.1, hmain.2.1, hmain.2.2.1,
    hmain.2.2.2, ?_, ?_, ?_, by simp⟩
  · rw [hmain.2.2.2]
    by_cases hr : d.ref_count > 1
    · simp [hr]
    · simp only [hr, if_false]
      congr 1
      omega
  · simp [List.getElem?_set, hi]
  · intro j hj
    exact List.getElem?_set_ne (fun e => hj e.symm)

/-- Witness for C18: `s.setChar(1, 'E')` on "Hello world" in `test_my_string`,
after the scope has ended. -/
theorem setChar_result_witness :
    (my_string.setChar 0 1 'E'
      { heap := [some { str := c_str "Hello world", ref_count := 1 }],
        objs := [some 0, none], cout := [Line.ref 1, Line.ref 2, Line.ref 1] }).bind
      (my_string.chars 0) = some "HEllo world".toList ∧
    (my_string.setChar 0 1 'E'
      { heap := [some { str := c_str "Hello world", ref_count := 1 }],
        objs := [some 0, none], cout := [Line.ref 1, Line.ref 2, Line.ref 1] }).bind
      (my_string.get_ref_count 0) = some 1 :=
  have hr : Strings.Reachable
      { heap := [some { str := c_str "Hello world", ref_count := 1 }],
        objs := [some 0, none], cout := [Line.ref 1, Line.ref 2, Line.ref 1] } :=
    Strings.Reachable.dtor 1
      { heap := [some { str := c_str "Hello world", ref_count := 2 }],
        objs := [some 0, some 0], cout := [Line.ref 1, Line.ref 2] } _
      (Strings.Reachable.copy 0
        { heap := [some { str := c_str "Hello world", ref_count := 1 }],
          objs := [some 0], cout := [Line.ref 1] } _ 1
        (Strings.Reachable.ctor (c_str "Hello world") Strings.empty _ 0
          Strings.Reachable.empty (by decide))
        (by decide))
      (by decide)
  have h := setChar_result _ 0 0 { str := c_str "Hello world", ref_count := 1 }
    "Hello world".toList [] 1 'E' hr (by decide) (by decide) (by decide) (by decide)
    (by decide) (by decide)
  ⟨h.2.2.1, h.2.2.2.2.1⟩

/-! ## Reference counting in RefCounted -/

theorem rcounts_of_block {T : Type} (st : Refs T) (a : Nat) (d : RefCounted.Data T)
    (h : st.block a = some d) : cell st.counts a = some d.ref_count := by
  unfold Refs.counts
  rw [cell_map]
  unfold Refs.block at h
  rw [h]; rfl

theorem rinv_ctor {T : Type} (t : T) (st : Refs T) (hinv : st.Inv) :
    (RefCounted.ctor t st).2.Inv := by
  unfold RefCounted.ctor Refs.Inv Refs.counts
  simp only [List.map_append, List.map_cons, List.map_nil, Option.map_some']
  apply counted_new _ (handles_to st.objs) _ _ hinv
  intro x
  rw [handles_append]
  simp [Refs.counts]

theorem rinv_copy {T : Type} (other : Nat) (st st1 : Refs T) (h : Nat)
    (hop : RefCounted.copy other st = some (h, st1)) (hinv : st.Inv) : st1.Inv := by
  unfold RefCounted.copy at hop
  simp only [Option.bind_eq_bind, Option.bind_eq_some] at hop
  obtain ⟨a, ha, d, hd, hfin⟩ := hop
  split at hfin
  · simp only [Option.some.injEq, Prod.mk.injEq] at hfin
    obtain ⟨-, rfl⟩ := hfin
    unfold Refs.Inv Refs.counts
    simp only [List.map_set, Option.map_some']
    exact counted_share _ (handles_to st.objs) _ a d.ref_count (rcounts_of_block st a d hd)
      (fun x => handles_append st.objs a x) hinv
  · simp at hfin

theorem map_dec {T : Type} (d : RefCounted.Data T) :
    Option.map RefCounted.Data.ref_count
        (if d.ref_count - 1 = 0 then none else some { d with ref_count := d.ref_count - 1 })
      = (if d.ref_count - 1 = 0 then none else some (d.ref_count - 1)) := by
  split <;> rfl

theorem rinv_dtor {T : Type} (this : Nat) (st st1 : Refs T)
    (hop : RefCounted.dtor this st = some st1) (hinv : st.Inv) : st1.Inv := by
  unfold RefCounted.dtor at hop
  simp only [Option.bind_eq_bind, Option.bind_eq_some] at hop
  obtain ⟨a, ha, d, hd, hfin⟩ := hop
  split at hfin
  · simp only [Option.some.injEq] at hfin
    subst hfin
    unfold Refs.Inv Refs.counts
    simp only [List.map_set, map_dec]
    exact counted_drop _ (handles_to st.objs) _ a d.ref_count (rcounts_of_block st a d hd)
      (fun x => handles_set_kill st.objs this a x (cell_lt _ _ _ ha).2) hinv
  · simp at hfin

theorem rinv_assign {T : Type} (this other : Nat) (st st1 : Refs T)
    (hop : RefCounted.assign this other st = some st1) (hinv : st.Inv) : st1.Inv := by
  unfold RefCounted.assign at hop
  by_cases hne : this ≠ other
  · simp only [hne, ne_eq, not_false_eq_true, if_true, Option.bind_eq_bind,
      Option.bind_eq_some] at hop
    obtain ⟨a, ha, d, hd, hfin⟩ := hop
    split at hfin
    · simp only [Option.bind_eq_some] at hfin
      obtain ⟨b, hb, e, he, hfin⟩ := hfin
      split at hfin
      · simp only [Option.some.injEq] at hfin
        subst hfin
        have h1 := counted_drop _ (handles_to st.objs)
          (handles_to (st.objs.set this none)) a d.ref_count
          (rcounts_of_block st a d hd)
          (fun x => handles_set_kill st.objs this a x (cell_lt _ _ _ ha).2) hinv
        have hcell : cell (st.counts.set a (if d.ref_count - 1 = 0 then none
            else some (d.ref_count - 1))) b = some e.ref_count := by
          have := cell_map RefCounted.Data.ref_count
            (st.heap.set a (if d.ref_count - 1 = 0 then none
              else some { d with ref_count := d.ref_count - 1 })) b
          rw [he, List.map_set, map_dec] at this
          exact this
        have h2 := counted_share _ _ (handles_to (st.objs.set this (some b))) b
          e.ref_count hcell
          (fun x => handles_repoint st.objs this a b x (cell_lt _ _ _ ha).2) h1
        unfold Refs.Inv Refs.counts
        simp only [List.map_set, Option.map_some', map_dec]
        exact h2
      · simp at hfin
    · simp at hfin
  · simp only [hne, if_false, Option.some.injEq] at hop
    subst hop
    exact hinv

theorem arrow_shared {T : Type} (this a : Nat) (d : RefCounted.Data T) (st : Refs T)
    (ha : st.data this = some a) (hd : st.block a = some d) (hr : d.ref_count > 1) :
    RefCounted.arrow this st = some (st.heap.length,
      { heap := st.heap.set a (some { d with ref_count := d.ref_count - 1 })
          ++ [some { obj := d.obj, ref_count := 1 }],
        objs := st.objs.set this (some st.heap.length) }) := by
  unfold RefCounted.arrow
  simp [ha, hd, hr]

theorem arrow_unshared {T : Type} (this a : Nat) (d : RefCounted.Data T) (st : Refs T)
    (ha : st.data this = some a) (hd : st.block a = some d) (hr : ¬ d.ref_count > 1) :
    RefCounted.arrow this st = some (a, st) := by
  unfold RefCounted.arrow
  simp [ha, hd, hr]

theorem rinv_arrow {T : Type} (this : Nat) (st st1 : Refs T) (p : Nat)
    (hop : RefCounted.arrow this st = some (p, st1)) (hinv : st.Inv) : st1.Inv := by
  have hop2 := hop
  unfold RefCounted.arrow at hop2
  simp only [Option.bind_eq_bind, Option.bind_eq_some] at hop2
  obtain ⟨a, ha, d, hd, -⟩ := hop2
  by_cases hr : d.ref_count > 1
  · rw [arrow_shared this a d st ha hd hr] at hop
    simp only [Option.some.injEq, Prod.mk.injEq] at hop
    obtain ⟨-, rfl⟩ := hop
    have h1 := counted_drop _ (handles_to st.objs)
      (handles_to (st.objs.set this none)) a d.ref_count
      (rcounts_of_block st a d hd)
      (fun x => handles_set_kill st.objs this a x (cell_lt _ _ _ ha).2) hinv
    have hz : ¬ d.ref_count - 1 = 0 := by omega
    simp only [hz, if_false] at h1
    have h2 := counted_new _ _ (handles_to (st.objs.set this (some st.heap.length))) ?_ h1
    · unfold Refs.Inv Refs.counts
      simp only [List.map_append, List.map_set, List.map_cons, List.map_nil,
        Option.map_some']
      exact h2
    · intro x
      rw [handles_repoint st.objs this a st.heap.length x (cell_lt _ _ _ ha).2]
      simp [Refs.counts]
  · rw [arrow_unshared this a d st ha hd hr] at hop
    simp only [Option.some.injEq, Prod.mk.injEq] at hop
    obtain ⟨-, rfl⟩ := hop
    exact hinv

theorem rcounts_write {T : Type} (st st1 : Refs T) (p : Nat) (f : T → T)
    (hop : st.write p f = some st1) : st1.counts = st.counts ∧ st1.objs = st.objs := by
  unfold Refs.write at hop
  simp only [Option.bind_eq_bind, Option.bind_eq_some, Option.some.injEq] at hop
  obtain ⟨d, hd, rfl⟩ := hop
  refine ⟨?_, rfl⟩
  unfold Refs.counts
  simp only [List.map_set, Option.map_some']
  apply set_same
  rw [List.getElem?_map, (cell_lt _ _ _ hd).2]
  rfl

theorem rinv_write {T : Type} (p : Nat) (f : T → T) (st st1 : Refs T)
    (hop : st.write p f = some st1) (hinv : st.Inv) : st1.Inv := by
  obtain ⟨h1, h2⟩ := rcounts_write st st1 p f hop
  unfold Refs.Inv
  rw [h1, h2]
  exact hinv

theorem rinv_reachable {T : Type} (st : Refs T) (h : st.Reachable) : st.Inv := by
  induction h with
  | empty =>
    intro a
    simp [Refs.empty, Refs.counts, cell, handles_to]
  | ctor t st _ ih => exact rinv_ctor t st ih
  | copy other st st1 h _ hop ih => exact rinv_copy other st st1 h hop ih
  | dtor this st st1 _ hop ih => exact rinv_dtor this st st1 hop ih
  | assign this other st st1 _ hop ih => exact rinv_assign this other st st1 hop ih
  | arrow this st st1 p _ hop ih => exact rinv_arrow this st st1 p hop ih
  | write p f st st1 _ hop ih => exact rinv_write p f st st1 hop ih

theorem handles_two (objs : List (Option Nat)) (h1 h2 a : Nat) (hne : h1 ≠ h2)
    (e1 : objs[h1]? = some (some a)) (e2 : objs[h2]? = some (some a)) :
    2 ≤ handles_to objs a := by
  have hk := handles_set_kill objs h2 a a e2
  simp only [if_true] at hk
  have h1' : (objs.set h2 none)[h1]? = some (some a) := by
    rw [List.getElem?_set_ne (fun e => hne e.symm)]; exact e1
  obtain ⟨hl, he⟩ := List.getElem?_eq_some.1 h1'
  have hmem : some a ∈ objs.set h2 none := he ▸ List.getElem_mem hl
  have hpos : 0 < List.count (some a) (objs.set h2 none) := List.count_pos_iff.2 hmem
  unfold handles_to at hk ⊢
  omega

theorem setChar_on_shared (st st1 : Strings) (this a : Nat) (d : my_string.Data) (i : Int)
    (c : Char) (ha : st.data this = some a) (hd : st.block a = some d)
    (hr : d.ref_count > 1) (hw : my_string.setChar this i c st = some st1) :
    ∃ nd : my_string.Data, nd.ref_count = 1 ∧
      st1 = { st with
        heap := st.heap.set a (some { d with ref_count := d.ref_count - 1 }) ++ [some nd],
        objs := st.objs.set this (some st.heap.length) } := by
  obtain ⟨a0, d0, stm, a1, d1, ha0, hd0, hm, ha1, hd1, -, rfl⟩ := setChar_steps _ _ _ _ _ hw
  rw [ha] at ha0
  cases ha0
  rw [hd] at hd0
  cases hd0
  rw [if_pos hr] at hm
  simp only [Option.bind_eq_some, Option.some.injEq] at hm
  obtain ⟨nd, hn, rfl⟩ := hm
  have hthis : this < st.objs.length := (cell_lt _ _ _ ha).1
  have e1 : a1 = st.heap.length := by
    have : Strings.data { st with
        heap := st.heap.set a (some { d with ref_count := d.ref_count - 1 }) ++ [some nd],
        objs := st.objs.set this (some st.heap.length) } this = some st.heap.length :=
      cell_set_self _ _ _ hthis
    rw [this] at ha1
    exact (Option.some.inj ha1).symm
  subst e1
  have e2 : d1 = nd := by
    have : Strings.block { st with
        heap := st.heap.set a (some { d with ref_count := d.ref_count - 1 }) ++ [some nd],
        objs := st.objs.set this (some st.heap.length) } st.heap.length = some nd := by
      have := cell_append_self (st.heap.set a (some { d with ref_count := d.ref_count - 1 }))
        (some nd)
      simpa [Strings.block] using this
    rw [this] at hd1
    exact (Option.some.inj hd1).symm
  subst e2
  refine ⟨{ d1 with str := d1.str.set i.toNat c }, data_ctor_ref _ d1 hn, ?_⟩
  have hl : (st.heap.set a (some { d with ref_count := d.ref_count - 1 })).length
      = st.heap.length := by simp
  simp only [List.set_append, hl, Nat.lt_irrefl, if_false, Nat.sub_self, List.set_cons_zero]

/-- C17 (copy-on-write isolation). Two distinct live objects `h1`, `h2` share
one block `a` in a reachable `my_string` state, and `setChar` through `h2` is
defined: afterwards the characters of block `a`, and so the string seen
through `h1`, are what they were, `h1` still points to `a`, `h2` points to a
new block, the count of `a` is the number of its former sharers minus one and
the count of the new block is 1 (both 1 for two sharers). The same holds for
two distinct live `RefCounted<T>` objects `g1`, `g2` sharing block `b` and a
write `f` through the non-const `operator->` of `g2`: the value seen through
`g1` is unchanged, the value seen through `g2` is `f` of the old value, and the
counts are the former number of sharers minus one, and 1. -/
theorem cow_isolation (st st1 : Strings) (h1 h2 a : Nat) (i : Int) (c : Char)
    {T : Type} (rs rs1 : Refs T) (g1 g2 b : Nat) (f : T → T)
    (hreach : st.Reachable) (hne : h1 ≠ h2)
    (hd1 : st.data h1 = some a) (hd2 : st.data h2 = some a)
    (hw : my_string.setChar h2 i c st = some st1)
    (rreach : rs.Reachable) (gne : g1 ≠ g2)
    (gd1 : rs.data g1 = some b) (gd2 : rs.data g2 = some b)
    (gw : RefCounted.mutate g2 f rs = some rs1) :
    (st1.block a).map my_string.Data.str = (st.block a).map my_string.Data.str ∧
    my_string.chars h1 st1 = my_string.chars h1 st ∧
    st1.data h1 = some a ∧ st1.data h2 = some st.heap.length ∧ st.heap.length ≠ a ∧
    2 ≤ handles_to st.objs a ∧
    my_string.get_ref_count h1 st1 = some ((handles_to st.objs a : Int) - 1) ∧
    my_string.get_ref_count h2 st1 = some 1 ∧
    RefCounted.value g1 rs1 = RefCounted.value g1 rs ∧
    RefCounted.value g2 rs1 = (RefCounted.value g2 rs).map f ∧
    rs1.data g1 = some b ∧ rs1.data g2 = some rs.heap.length ∧ rs.heap.length ≠ b ∧
    2 ≤ handles_to rs.objs b ∧
    RefCounted.get_ref_count g1 rs1 = some ((handles_to rs.objs b : Int) - 1) ∧
    RefCounted.get_ref_count g2 rs1 = some 1 := by
  -- the string
  have hinv := inv_reachable st hreach
  have htwo := handles_two st.objs h1 h2 a hne (cell_lt _ _ _ hd1).2 (cell_lt _ _ _ hd2).2
  obtain ⟨d, hd⟩ : ∃ d, st.block a = some d := by
    cases hb : st.block a with
    | some d => exact ⟨d, rfl⟩
    | none =>
      have := hinv a
      rw [Strings.counts, cell_map] at this
      unfold Strings.block at hb
      rw [hb] at this
      simp only [Option.map_none'] at this
      omega
  have hrc : d.ref_count = (handles_to st.objs a : Int) := by
    have := hinv a
    rw [counts_of_block st a d hd] at this
    exact this.1
  have hr : d.ref_count > 1 := by omega
  obtain ⟨nd, hnd, rfl⟩ := setChar_on_shared st st1 h2 a d i c hd2 hd hr hw
  have halt : a < st.heap.length := (cell_lt _ _ _ hd).1
  have hh2 : h2 < st.objs.length := (cell_lt _ _ _ hd2).1
  have hblock_a : Strings.block { st with
      heap := st.heap.set a (some { d with ref_count := d.ref_count - 1 }) ++ [some nd],
      objs := st.objs.set h2 (some st.heap.length) } a
      = some { d with ref_count := d.ref_count - 1 } := by
    unfold Strings.block
    rw [cell_append_left _ _ _ (by simpa using halt)]
    exact cell_set_self _ _ _ halt
  have hblock_n : Strings.block { st with
      heap := st.heap.set a (some { d with ref_count := d.ref_count - 1 }) ++ [some nd],
      objs := st.objs.set h2 (some st.heap.length) } st.heap.length = some nd := by
    have := cell_append_self (st.heap.set a (some { d with ref_count := d.ref_count - 1 }))
      (some nd)
    simpa [Strings.block] using this
  have hdata1 : Strings.data { st with
      heap := st.heap.set a (some { d with ref_count := d.ref_count - 1 }) ++ [some nd],
      objs := st.objs.set h2 (some st.heap.length) } h1 = some a := by
    unfold Strings.data
    rw [cell_set_ne _ _ _ _ (fun e => hne e.symm)]
    exact hd1
  have hdata2 : Strings.data { st with
      heap := st.heap.set a (some { d with ref_count := d.ref_count - 1 }) ++ [some nd],
      objs := st.objs.set h2 (some st.heap.length) } h2 = some st.heap.length :=
    cell_set_self _ _ _ hh2
  -- the template
  have rinv := rinv_reachable rs rreach
  have rtwo := handles_two rs.objs g1 g2 b gne (cell_lt _ _ _ gd1).2 (cell_lt _ _ _ gd2).2
  obtain ⟨e, he⟩ : ∃ e, rs.block b = some e := by
    cases hb : rs.block b with
    | some e => exact ⟨e, rfl⟩
    | none =>
      have := rinv b
      rw [Refs.counts, cell_map] at this
      unfold Refs.block at hb
      rw [hb] at this
      simp only [Option.map_none'] at this
      omega
  have hrce : e.ref_count = (handles_to rs.objs b : Int) := by
    have := rinv b
    rw [rcounts_of_block rs b e he] at this
    exact this.1
  have hre : e.ref_count > 1 := by omega
  have hblt : b < rs.heap.length := (cell_lt _ _ _ he).1
  have hg2 : g2 < rs.objs.length := (cell_lt _ _ _ gd2).1
  have hmut : RefCounted.mutate g2 f rs = some
      { heap := rs.heap.set b (some { e with ref_count := e.ref_count - 1 })
          ++ [some { obj := f e.obj, ref_count := 1 }],
        objs := rs.objs.set g2 (some rs.heap.length) } := by
    unfold RefCounted.mutate
    rw [arrow_shared g2 b e rs gd2 he hre]
    have hb2 : Refs.block
        { heap := rs.heap.set b (some { e with ref_count := e.ref_count - 1 })
            ++ [some { obj := e.obj, ref_count := 1 }],
          objs := rs.objs.set g2 (some rs.heap.length) } rs.heap.length
        = some { obj := e.obj, ref_count := 1 } := by
      have := cell_append_self (rs.heap.set b (some { e with ref_count := e.ref_count - 1 }))
        (some ({ obj := e.obj, ref_count := 1 } : RefCounted.Data T))
      simpa [Refs.block] using this
    have hl : (rs.heap.set b (some { e with ref_count := e.ref_count - 1 })).length
        = rs.heap.length := by simp
    simp only [Option.bind_eq_bind, Option.some_bind, Refs.write, hb2, List.set_append, hl,
      Nat.lt_irrefl, if_false, Nat.sub_self, List.set_cons_zero]
  rw [hmut] at gw
  cases gw
  have rblock_b : Refs.block
      { heap := rs.heap.set b (some { e with ref_count := e.ref_count - 1 })
          ++ [some { obj := f e.obj, ref_count := 1 }],
        objs := rs.objs.set g2 (some rs.heap.length) } b
      = some { e with ref_count := e.ref_count - 1 } := by
    unfold Refs.block
    rw [cell_append_left _ _ _ (by simpa using hblt)]
    exact cell_set_self _ _ _ hblt
  have rblock_n : Refs.block
      { heap := rs.heap.set b (some { e with ref_count := e.ref_count - 1 })
          ++ [some { obj := f e.obj, ref_count := 1 }],
        objs := rs.objs.set g2 (some rs.heap.length) } rs.heap.length
      = some { obj := f e.obj, ref_count := 1 } := by
    have := cell_append_self (rs.heap.set b (some { e with ref_count := e.ref_count - 1 }))
      (some ({ obj := f e.obj, ref_count := 1 } : RefCounted.Data T))
    simpa [Refs.block] using this
  have rdata1 : Refs.data
      { heap := rs.heap.set b (some { e with ref_count := e.ref_count - 1 })
          ++ [some { obj := f e.obj, ref_count := 1 }],
        objs := rs.objs.set g2 (some rs.heap.length) } g1 = some b := by
    unfold Refs.data
    rw [cell_set_ne _ _ _ _ (fun e => gne e.symm)]
    exact gd1
  have rdata2 : Refs.data
      { heap := rs.heap.set b (some { e with ref_count := e.ref_count - 1 })
          ++ [some { obj := f e.obj, ref_count := 1 }],
        objs := rs.objs.set g2 (some rs.heap.length) } g2 = some rs.heap.length :=
    cell_set_self _ _ _ hg2
  refine ⟨?_, ?_, hdata1, hdata2, by omega, htwo, ?_, ?_, ?_, ?_, rdata1, rdata2, by omega,
    rtwo, ?_, ?_⟩
  · rw [hblock_a, hd]; rfl
  · unfold my_string.chars
    simp [hdata1, hblock_a, hd1, hd]
  · rw [get_ref_count_of_block _ h1 a _ hdata1 hblock_a]
    simp only [hrc]
  · rw [get_ref_count_of_block _ h2 _ _ hdata2 hblock_n, hnd]
  · simp [RefCounted.value, RefCounted.arrow_const, Refs.read, rdata1, rblock_b, gd1, he]
  · simp [RefCounted.value, RefCounted.arrow_const, Refs.read, rdata2, rblock_n, gd2, he]
  · simp only [RefCounted.get_ref_count, rdata1, rblock_b, Option.bind_eq_bind,
      Option.some_bind]
    rw [hrce]
  · simp [RefCounted.get_ref_count, rdata2, rblock_n]

/-- Witness for C17: `s` and its copy `t` of `test_my_string` with a write
through `t`, and `p1` and its copy `p2` of `test_template_wrapper` with
`p2->x = 30`; the test prints `p1.x = 10`, `p2.x = 30` and a count of 1. -/
theorem cow_isolation_witness :
    my_string.setChar 1 1 'E'
        { heap := [some { str := c_str "Hello world", ref_count := 2 }],
          objs := [some 0, some 0], cout := [Line.ref 1, Line.ref 2] }
      = some { heap := [some { str := c_str "Hello world", ref_count := 1 },
                 some { str := c_str "HEllo world", ref_count := 1 }],
               objs := [some 0, some 1], cout := [Line.ref 1, Line.ref 2] } ∧
    my_string.chars 0
        { heap := [some { str := c_str "Hello world", ref_count := 1 },
            some { str := c_str "HEllo world", ref_count := 1 }],
          objs := [some 0, some 1], cout := [Line.ref 1, Line.ref 2] }
      = my_string.chars 0
        { heap := [some { str := c_str "Hello world", ref_count := 2 }],
          objs := [some 0, some 0], cout := [Line.ref 1, Line.ref 2] } ∧
    RefCounted.mutate 1 (fun p : Point => { p with x := 30 })
        { heap := [some { obj := { x := 10, y := 20 }, ref_count := 2 }],
          objs := [some 0, some 0] }
      = some { heap := [some { obj := { x := 10, y := 20 }, ref_count := 1 },
                 some { obj := { x := 30, y := 20 }, ref_count := 1 }],
               objs := [some 0, some 1] } ∧
    RefCounted.value 0
        ({ heap := [some { obj := { x := 10, y := 20 }, ref_count := 1 },
            some { obj := { x := 30, y := 20 }, ref_count := 1 }],
           objs := [some 0, some 1] } : Refs Point)
      = RefCounted.value 0
        ({ heap := [some { obj := { x := 10, y := 20 }, ref_count := 2 }],
           objs := [some 0, some 0] } : Refs Point) ∧
    (test_template_wrapper Refs.empty).map Prod.fst
      = some [Line.msg "" none, Line.msg "=== Test 4.3: Template Wrapper ===" none,
          Line.msg "Initial ref count: " (some 1), Line.msg "Ref count after copy: " (some 2),
          Line.msg "p1.x = " (some 10), Line.msg ", p2.x = " (some 30),
          Line.msg "Ref count after modification: " (some 1),
          Line.msg "Final ref count: " (some 1)] :=
  have hs : Strings.Reachable
      { heap := [some { str := c_str "Hello world", ref_count := 2 }],
        objs := [some 0, some 0], cout := [Line.ref 1, Line.ref 2] } :=
    Strings.Reachable.copy 0
      { heap := [some { str := c_str "Hello world", ref_count := 1 }],
        objs := [some 0], cout := [Line.ref 1] } _ 1
      (Strings.Reachable.ctor (c_str "Hello world") Strings.empty _ 0
        Strings.Reachable.empty (by decide))
      (by decide)
  have hr : Refs.Reachable
      ({ heap := [some { obj := { x := 10, y := 20 }, ref_count := 2 }],
          objs := [some 0, some 0] } : Refs Point) :=
    Refs.Reachable.copy 0 (RefCounted.ctor ({ x := 10, y := 20 } : Point) Refs.empty).2 _ 1
      (Refs.Reachable.ctor _ _ Refs.Reachable.empty) (by decide)
  have hw : my_string.setChar 1 1 'E'
        { heap := [some { str := c_str "Hello world", ref_count := 2 }],
          objs := [some 0, some 0], cout := [Line.ref 1, Line.ref 2] }
      = some { heap := [some { str := c_str "Hello world", ref_count := 1 },
                 some { str := c_str "HEllo world", ref_count := 1 }],
               objs := [some 0, some 1], cout := [Line.ref 1, Line.ref 2] } := by decide
  have gw : RefCounted.mutate 1 (fun p : Point => { p with x := 30 })
        { heap := [some { obj := { x := 10, y := 20 }, ref_count := 2 }],
          objs := [some 0, some 0] }
      = some { heap := [some { obj := { x := 10, y := 20 }, ref_count := 1 },
                 some { obj := { x := 30, y := 20 }, ref_count := 1 }],
               objs := [some 0, some 1] } := by decide
  have h := cow_isolation _ _ 0 1 0 1 'E' _ _ 0 1 0 (fun p : Point => { p with x := 30 })
    hs (by decide) (by decide) (by decide) hw hr (by decide) (by decide) (by decide) gw
  ⟨hw, h.2.1, gw, h.2.2.2.2.2.2.2.2.1, by decide⟩

theorem step_bound (Size : Nat) (b : bump) (op : Op) (h : b.current_pos ≤ Size) :
    (b.step Size op).current_pos ≤ Size := by
  cases op with
  | alloc T count =>
    simp only [bump.step]
    by_cases hc : (b.current_pos + b.required_size T count) % 2 ^ 64 > Size
    · rw [alloc_fail _ _ _ _ hc]; exact h
    · rw [alloc_ok _ _ _ _ hc]
      simp only
      unfold bump.required_size at hc
      generalize T.size * count = m at hc ⊢
      generalize b.padding T = p at hc ⊢
      omega
  | dealloc =>
    simp only [bump.step, dealloc_eq]
    split
    · exact h
    · simp only
      split
      · exact Nat.zero_le _
      · exact h

theorem run_bound (Size : Nat) (ops : List Op) (b : bump) (h : b.current_pos ≤ Size) :
    (bump.run Size ops b).current_pos ≤ Size := by
  induction ops generalizing b with
  | nil => exact h
  | cons op ops ih =>
    have e : bump.run Size (op :: ops) b = bump.run Size ops (b.step Size op) := rfl
    rw [e]
    exact ih _ (step_bound Size b op h)

/-- C21 (position bound). In every state reached from a fresh `bump<Size>` by
any sequence of `alloc` calls (any element type, any count, successful or
not, wrap-around included) and `dealloc` calls, `current_pos` is at most
`Size`; one more call keeps it so; and `get_available_space()`, computed in
`size_t`, is the exact difference `Size - current_pos`, so the two add up to
`Size`. -/
theorem position_bound (Size : Nat) (ops : List Op) (op : Op) (hS : Size < 2 ^ 64) :
    (bump.run Size ops bump.fresh).current_pos ≤ Size ∧
    ((bump.run Size ops bump.fresh).step Size op).current_pos ≤ Size ∧
    (bump.run Size ops bump.fresh).get_available_space Size
      = Size - (bump.run Size ops bump.fresh).current_pos ∧
    (bump.run Size ops bump.fresh).current_pos
      + (bump.run Size ops bump.fresh).get_available_space Size = Size := by
  have hb := run_bound Size ops bump.fresh (Nat.zero_le _)
  have hg : (bump.run Size ops bump.fresh).get_available_space Size
      = Size - (bump.run Size ops bump.fresh).current_pos := by
    unfold bump.get_available_space
    omega
  refine ⟨hb, step_bound Size _ op hb, hg, ?_⟩
  rw [hg]
  omega

/-- Witness for C21: a `bump<1024>` after calls that include the two requests
whose sizes wrap, a `dealloc`, and the refused request of the test. -/
theorem position_bound_witness :
    1024 < 2 ^ 64 ∧
    bump.run 1024 [Op.alloc Ty.uint8_t 16, Op.alloc Ty.uint8_t (2 ^ 64 - 8),
        Op.alloc Ty.int (2 ^ 62), Op.dealloc, Op.alloc Ty.int 1000] bump.fresh
      = { current_pos := 8, allocation_count := 2 } ∧
    (bump.run 1024 [Op.alloc Ty.uint8_t 16, Op.alloc Ty.uint8_t (2 ^ 64 - 8),
        Op.alloc Ty.int (2 ^ 62), Op.dealloc, Op.alloc Ty.int 1000] bump.fresh).current_pos
      ≤ 1024 ∧
    (bump.run 1024 [Op.alloc Ty.uint8_t 16, Op.alloc Ty.uint8_t (2 ^ 64 - 8),
        Op.alloc Ty.int (2 ^ 62), Op.dealloc, Op.alloc Ty.int 1000]
        bump.fresh).get_available_space 1024 = 1016 :=
  have h := position_bound 1024 [Op.alloc Ty.uint8_t 16, Op.alloc Ty.uint8_t (2 ^ 64 - 8),
    Op.alloc Ty.int (2 ^ 62), Op.dealloc, Op.alloc Ty.int 1000] Op.dealloc (by decide)
  ⟨by decide, by decide, h.1, by decide⟩

end Fibre
